import Mathlib

/-!
Verification development for the xcash-inverite loan pipeline.

We shallowly embed the Python sources (`report_features.py`,
`process_pending.py`, `formidable_receiver.py`, `loan_analyzer.py`) into
Lean.  Conventions used throughout:

* Python `float` values are modelled as exact rationals (`ℚ`); the
  `float()` literal grammar is modelled for finite decimal/scientific
  literals (the `inf`/`nan` words and digit underscores are outside the
  model, as is binary rounding).
* Python `datetime` values are modelled as integer seconds since an
  arbitrary epoch; `datetime.utcnow()` / `datetime.now()` become an
  explicit `now : Int` parameter.
* Fallible Python code (expressions that can raise) returns
  `Except String α`; the string carries the flavour of the exception.
* JSON dictionaries read from files are modelled as already-parsed
  values; a file whose contents do not parse is represented explicitly
  (see `QueueFile`).
* Only ASCII text is considered (all strings appearing in the
  repository are ASCII apart from log emoji, which no logic inspects).
-/

namespace XCash

/-! ### Python string primitives -/

/-- Characters treated as whitespace by Python `str.strip` (ASCII part). -/
def pyIsSpace (c : Char) : Bool :=
  c == ' ' || c == '\t' || c == '\n' || c == '\r' ||
  c == Char.ofNat 11 || c == Char.ofNat 12

/-- Python `str.lstrip()` (ASCII whitespace). -/
def pyLStrip (s : String) : String :=
  ⟨s.toList.dropWhile pyIsSpace⟩

/-- Python `str.rstrip()` (ASCII whitespace). -/
def pyRStrip (s : String) : String :=
  ⟨(s.toList.reverse.dropWhile pyIsSpace).reverse⟩

/-- Python `str.strip()` (ASCII whitespace). -/
def pyStrip (s : String) : String :=
  pyRStrip (pyLStrip s)

/-- Python `str.lower()` (ASCII). -/
def pyLower (s : String) : String :=
  ⟨s.toList.map Char.toLower⟩

/-- `w` occurs at index `i` of `s`. -/
def matchAt (s w : List Char) (i : Nat) : Bool :=
  w.isPrefixOf (s.drop i)

/-- Python `needle in hay` on strings: contiguous substring test. -/
def pyIn (needle hay : String) : Bool :=
  (List.range (hay.toList.length + 1)).any fun i =>
    matchAt hay.toList needle.toList i

/-- A regex word character (`\w`, ASCII): letters, digits, underscore. -/
def isWordChar (c : Char) : Bool :=
  c.isAlphanum || c == '_'

/-- The character before position `i` is absent or not a word char
(`\b` on the left of a pattern starting with a word char). -/
def leftBoundary (s : List Char) (i : Nat) : Bool :=
  match i with
  | 0 => true
  | j + 1 =>
    match s.get? j with
    | some c => !isWordChar c
    | none => true

/-- The character at position `i` is absent or not a word char
(`\b` on the right of a pattern ending in a word char). -/
def rightBoundary (s : List Char) (i : Nat) : Bool :=
  match s.get? i with
  | some c => !isWordChar c
  | none => true

/-- `re.search(r"\b" ++ w ++ r"\b", s)` for a literal `w` made of word
characters: `w` occurs delimited by non-word characters (or the string
ends). -/
def containsWordB (w : String) (s : String) : Bool :=
  let sl := s.toList
  let wl := w.toList
  (List.range (sl.length + 1)).any fun i =>
    matchAt sl wl i && leftBoundary sl i && rightBoundary sl (i + wl.length)

/-- Occurrence of a literal whose final character is a NON-word
character followed by `\b`: the boundary then demands that the next
character exists and IS a word character (used for the `e\.t\.`
alternative of the e-transfer regex). -/
def containsWordBNonWordEnd (w : String) (s : String) : Bool :=
  let sl := s.toList
  let wl := w.toList
  (List.range (sl.length + 1)).any fun i =>
    matchAt sl wl i && leftBoundary sl i &&
      (match sl.get? (i + wl.length) with
       | some c => isWordChar c
       | none => false)

/-- The loop of `deleteAll` below.  Each step consumes at least one
character of `s`, so the fuel supplied by the wrapper (`s.length + 1`)
is never exhausted; structural recursion on the fuel keeps the function
kernel-reducible. -/
def deleteAllGo (t : List Char) : Nat → List Char → List Char
  | 0, s => s
  | fuel + 1, s =>
    match s with
    | [] => []
    | c :: rest =>
      if t ≠ [] && matchAt (c :: rest) t 0 then
        deleteAllGo t fuel ((c :: rest).drop t.length)
      else
        c :: deleteAllGo t fuel rest

/-- Python `str.replace(t, "")`: delete every (leftmost,
non-overlapping) occurrence of the non-empty token `t`. -/
def deleteAll (t s : List Char) : List Char :=
  deleteAllGo t (s.length + 1) s

/-- Python `str.replace(t, "")` on strings. -/
def pyDelete (t s : String) : String :=
  ⟨deleteAll t.toList s.toList⟩

/-- Loop of `collapseWS` (fuel as in `deleteAllGo`). -/
def collapseWSGo : Nat → List Char → List Char
  | 0, s => s
  | fuel + 1, s =>
    match s with
    | [] => []
    | c :: rest =>
      if pyIsSpace c then
        ' ' :: collapseWSGo fuel (rest.dropWhile pyIsSpace)
      else
        c :: collapseWSGo fuel rest

/-- Collapse every maximal run of whitespace to a single space
(`re.sub(r"\s+", " ", s)`). -/
def collapseWS (s : List Char) : List Char :=
  collapseWSGo (s.length + 1) s

/-! ### Python float literals -/

/-- Value of a digit character. -/
def digitVal (c : Char) : Nat := c.toNat - '0'.toNat

/-- Natural number denoted by a digit string (most significant first). -/
def digitsToNat (ds : List Char) : Nat :=
  ds.foldl (fun acc c => acc * 10 + digitVal c) 0

/-- Split a leading run of digits off a character list. -/
def spanDigits (s : List Char) : List Char × List Char :=
  (s.takeWhile Char.isDigit, s.dropWhile Char.isDigit)

/-- Grammar of a finite Python `float()` literal, already stripped:
`[+-]? (digits [. digits?] | . digits) [(e|E) [+-]? digits]`.
Returns the exact rational value, or `none` when `float()` would raise
`ValueError`. -/
def pyParseFloat (s : String) : Option ℚ :=
  let l := s.toList
  let (sgn, l) :=
    match l with
    | '+' :: rest => ((1 : ℚ), rest)
    | '-' :: rest => ((-1 : ℚ), rest)
    | rest => ((1 : ℚ), rest)
  let (ip, l) := spanDigits l
  let (fp, l) :=
    match l with
    | '.' :: rest => spanDigits rest
    | rest => ([], rest)
  if ip.isEmpty && fp.isEmpty then
    none
  else
    let mant : ℚ :=
      (digitsToNat ip : ℚ) + (digitsToNat fp : ℚ) / ((10 : ℚ) ^ fp.length)
    match l with
    | [] => some (sgn * mant)
    | e :: rest =>
      if e == 'e' || e == 'E' then
        let (esgn, rest) :=
          match rest with
          | '+' :: r => ((1 : Int), r)
          | '-' :: r => ((-1 : Int), r)
          | r => ((1 : Int), r)
        let (ed, rest) := spanDigits rest
        if ed.isEmpty || !rest.isEmpty then
          none
        else
          some (sgn * mant * (10 : ℚ) ^ (esgn * (digitsToNat ed : Int)))
      else
        none

/-- There is one subtlety above: after the integer/fraction parts the
remaining characters must be empty or a well-formed exponent; the
`match l with | [] => ...` handles that.  But the fraction branch only
fires on a literal dot; a string such as `"1x"` leaves `l = ['x']`,
falls into the exponent arm and fails.  This mirrors `float()`. -/
theorem pyParseFloat_spec_note : pyParseFloat "1x" = none := by decide

/-! ### Python datetime -/

/-- Leap year (proleptic Gregorian, as used by `datetime`). -/
def isLeap (y : Int) : Bool :=
  (y % 4 == 0 && y % 100 != 0) || y % 400 == 0

/-- Days in a month (`m` between 1 and 12). -/
def daysInMonth (y m : Int) : Int :=
  if m == 2 then (if isLeap y then 29 else 28)
  else if m == 4 || m == 6 || m == 9 || m == 11 then 30
  else 31

/-- Days from 1970-01-01 to y-m-d (proleptic Gregorian civil calendar,
Howard Hinnant's `days_from_civil`). -/
def daysFromCivil (y m d : Int) : Int :=
  let y := if m ≤ 2 then y - 1 else y
  let era : Int := (if 0 ≤ y then y else y - 399) / 400
  let yoe : Int := y - era * 400
  let mp : Int := (m + 9) % 12
  let doy : Int := (153 * mp + 2) / 5 + d - 1
  let doe : Int := yoe * 365 + yoe / 4 - yoe / 100 + doy
  era * 146097 + doe - 719468

/-- Seconds since the epoch for a civil datetime. -/
def epochSeconds (y m d h mi s : Int) : Int :=
  daysFromCivil y m d * 86400 + h * 3600 + mi * 60 + s

/-- Read exactly `n` digits. -/
def readDigits (n : Nat) (l : List Char) : Option (Nat × List Char) :=
  let ds := l.take n
  if ds.length == n && ds.all Char.isDigit then
    some (digitsToNat ds, l.drop n)
  else
    none

/-- `strptime`'s `%m`-style field: two digits if they form a value in
`[lo2, hi]`, else a single digit in `[lo1, 9]`; mirrors the regexes
Python generates (`1[0-2]|0[1-9]|[1-9]` and friends). -/
def readTwoOrOne (lo2 hi lo1 : Nat) (l : List Char) : Option (Nat × List Char) :=
  match l with
  | c1 :: c2 :: rest =>
    if c1.isDigit && c2.isDigit then
      let v := digitVal c1 * 10 + digitVal c2
      if lo2 ≤ v && v ≤ hi then some (v, rest)
      else if lo1 ≤ digitVal c1 && digitVal c1 ≤ 9 then some (digitVal c1, c2 :: rest)
      else none
    else if c1.isDigit && lo1 ≤ digitVal c1 then some (digitVal c1, c2 :: rest)
    else none
  | [c1] =>
    if c1.isDigit && lo1 ≤ digitVal c1 then some (digitVal c1, []) else none
  | [] => none

/-- Expect a literal character. -/
def readLit (c : Char) (l : List Char) : Option (List Char) :=
  match l with
  | x :: rest => if x == c then some rest else none
  | [] => none

/-- `datetime.strptime(s, "%Y-%m-%d")`, including the calendar
validation `datetime` performs; returns the epoch-seconds value. -/
def strptimeDate (s : String) : Option Int := do
  let l := s.toList
  let (y, l) ← readDigits 4 l
  let l ← readLit '-' l
  let (m, l) ← readTwoOrOne 1 12 1 l
  let l ← readLit '-' l
  let (d, l) ← readTwoOrOne 1 31 1 l
  if !l.isEmpty then none
  else if y == 0 then none
  else if (d : Int) > daysInMonth y m then none
  else some (epochSeconds y m d 0 0 0)

/-- `datetime.strptime(s, "%Y-%m-%d %H:%M:%S")`. -/
def strptimeDateTime (s : String) : Option Int := do
  let l := s.toList
  let (y, l) ← readDigits 4 l
  let l ← readLit '-' l
  let (m, l) ← readTwoOrOne 1 12 1 l
  let l ← readLit '-' l
  let (d, l) ← readTwoOrOne 1 31 1 l
  let l ← readLit ' ' l
  let (h, l) ← readTwoOrOne 0 23 0 l
  let l ← readLit ':' l
  let (mi, l) ← readTwoOrOne 0 59 0 l
  let l ← readLit ':' l
  let (sec, l) ← readTwoOrOne 0 59 0 l
  if !l.isEmpty then none
  else if y == 0 then none
  else if (d : Int) > daysInMonth y m then none
  else some (epochSeconds y m d h mi sec)

/-- `report_features._parse_dt`: empty string gives `None`; otherwise the
two formats are tried in order, failures are swallowed. -/
def parse_dt (s : String) : Option Int :=
  if s == "" then none
  else
    match strptimeDateTime s with
    | some t => some t
    | none => strptimeDate s

/-! ### Banker's rounding (Python `round(x, 2)` on our rational model) -/

/-- Round to the nearest integer, ties to even. -/
def roundHalfEven (x : ℚ) : Int :=
  let f : Int := ⌊x⌋
  let r : ℚ := x - (f : ℚ)
  if r < 1/2 then f
  else if 1/2 < r then f + 1
  else if f % 2 == 0 then f else f + 1

/-- Python `round(x, 2)` (exact-rational model). -/
def round2 (x : ℚ) : ℚ :=
  (roundHalfEven (x * 100) : ℚ) / 100

/-! ### Python values

A small model of the JSON-like values the Python code passes around
(dictionaries are association lists; `.dict` lookups take the last
binding, matching how the parser below builds them). -/

inductive PyVal where
  | none
  | bool (b : Bool)
  | int (n : Int)
  | float (q : ℚ)
  | str (s : String)
  | list (xs : List PyVal)
  | dict (xs : List (String × PyVal))

/-- `d.get(k)` on an association list (last binding wins). -/
def dictGet (xs : List (String × PyVal)) (k : String) : Option PyVal :=
  match xs with
  | [] => Option.none
  | (k0, v) :: rest =>
    match dictGet rest k with
    | some w => some w
    | Option.none => if k0 == k then some v else Option.none

/-- `d.get(k, default)`. -/
def dictGetD (xs : List (String × PyVal)) (k : String) (dflt : PyVal) : PyVal :=
  (dictGet xs k).getD dflt

/-- `k in d`. -/
def dictHas (xs : List (String × PyVal)) (k : String) : Bool :=
  (dictGet xs k).isSome

/-- `d[k] = v`: update the value in place when the key is present
(keeping its position, as a Python dict does), else append the new
binding. -/
def dictSet (xs : List (String × PyVal)) (k : String) (v : PyVal) :
    List (String × PyVal) :=
  if dictHas xs k then
    xs.map (fun kv => if kv.1 == k then (kv.1, v) else kv)
  else
    xs ++ [(k, v)]

/-- `d.setdefault(k, v)`. -/
def dictSetDefault (xs : List (String × PyVal)) (k : String) (v : PyVal) :
    List (String × PyVal) :=
  if dictHas xs k then xs else xs ++ [(k, v)]

namespace ReportFeatures

/-! ### report_features.py -/

/-- A value on which `_to_float` is invoked: the `credit`, `debit` and
`balance` fields of a raw transaction.  `.absent` stands for a missing
key (the code supplies the default `""`), `.null` for JSON `null`,
`.num` for a JSON number, `.str` for a string. -/
inductive FloatVal where
  | absent
  | null
  | num (q : ℚ)
  | str (s : String)

/-- `report_features._to_float`.  `float()` on a malformed non-empty
string raises `ValueError`, which we surface as `.error`. -/
def _to_float (v : FloatVal) : Except String ℚ :=
  match v with
  | .absent => .ok 0            -- the call sites default a missing key to ""
  | .null => .ok 0              -- `if s is None: return 0.0`
  | .num q => .ok q             -- `isinstance(s, (int, float))`
  | .str s =>
    let t := pyDelete "," (pyStrip s)
    if t == "" then .ok 0
    else
      match pyParseFloat t with
      | some q => .ok q
      | Option.none => .error ("could not convert string to float: " ++ t)

/-- A raw Inverite transaction, restricted to the keys
`extract_features_from_json` reads.  `Option.none` models a missing key
or JSON `null` (the code treats both alike via `.get(k, d)` / `or`). -/
structure RTxn where
  date : Option String := Option.none
  credit : FloatVal := .absent
  debit : FloatVal := .absent
  details : Option String := Option.none
  category : Option String := Option.none
  flags : Option (List String) := Option.none
  balance : FloatVal := .absent

structure PayPayment where
  date : Option String := Option.none
  flags : Option (List String) := Option.none
  details : Option String := Option.none

structure PaySchedule where
  payments : Option (List PayPayment) := Option.none

structure RAccount where
  transactions : Option (List RTxn) := Option.none
  payschedules : Option (List PaySchedule) := Option.none

/-- A raw Inverite report, restricted to the keys the extractor reads. -/
structure RReport where
  complete_datetime : Option String := Option.none
  accounts : Option (List RAccount) := Option.none

/-- `report_features._direction`. -/
def _direction (credit debit : ℚ) (details : String) : String :=
  if 0 < credit ∧ debit = 0 then "credit"
  else if 0 < debit ∧ credit = 0 then "debit"
  else
    let dl := pyLower details
    if ["deposit", "autodeposit", "credit", "received", "refund"].any
        (fun k => pyIn k dl) then
      "credit"
    else "debit"

/-- Boilerplate tokens stripped by `_canonical_counterparty`. -/
def boilerplateTokens : List String :=
  ["branch transaction", "pre-authorized", "preauthorized", "preauth", "p.a.d",
   "pad", "transaction", "eft", "debit", "credit", "pos", "visa", "mc"]

/-- Characters kept by `re.sub(r"[^a-z0-9\s\.\-&]", " ", d)`. -/
def keepChar (c : Char) : Bool :=
  ('a' ≤ c ∧ c ≤ 'z') || c.isDigit || pyIsSpace c || c == '.' || c == '-' || c == '&'

/-- Loop of `dropDigitRuns` (each step consumes at least one character,
so the wrapper's fuel is never exhausted). -/
def dropDigitRunsGo : Nat → Option Char → List Char → List Char
  | 0, _, s => s
  | fuel + 1, prev, s =>
    match s with
    | [] => []
    | c :: rest =>
      if c.isDigit then
        let run := (c :: rest).takeWhile Char.isDigit
        let rest2 := (c :: rest).dropWhile Char.isDigit
        let leftOk := match prev with | Option.none => true | some p => !isWordChar p
        let rightOk := match rest2.head? with
          | Option.none => true
          | some n => !isWordChar n
        if 2 ≤ run.length && leftOk && rightOk then
          ' ' :: dropDigitRunsGo fuel (some (run.getLastD c)) rest2
        else
          run ++ dropDigitRunsGo fuel (some (run.getLastD c)) rest2
      else
        c :: dropDigitRunsGo fuel (some c) rest

/-- `re.sub(r"\b(\d{2,})\b", " ", d)`: replace every maximal digit run
of length ≥ 2 that is word-boundary delimited on both sides with a
single space.  `prev` is the original character preceding the current
position (boundaries are evaluated on the original string). -/
def dropDigitRuns (prev : Option Char) (s : List Char) : List Char :=
  dropDigitRunsGo (s.length + 1) prev s

/-- `report_features._canonical_counterparty`. -/
def _canonical_counterparty (details : String) : String :=
  let d := pyLower details
  let d := collapseWS d.toList
  let d := boilerplateTokens.foldl (fun acc t => deleteAll t.toList acc) d
  let d := d.map (fun c => if keepChar c then c else ' ')
  let d := dropDigitRuns Option.none d
  let d := collapseWS d
  pyStrip ⟨d⟩

/-- Gambling brand substrings of `_is_gambling`. -/
def gamblingBrands : List String :=
  ["draftkings", "bet365", "betmgm", "fanduel", "rivalry", "thescore", "northstar",
   "olg", "proline", "playnow", "ggpoker", "pokerstars", "betway", "unibet", "leovegas",
   "casino", "sports interaction", "tonybet", "bet99", "powerplay", "pinnacle", "888"]

/-- `report_features._is_gambling`. -/
def _is_gambling (category details : String) : Bool :=
  if category != "" && pyIn "gambling" (pyLower category) then true
  else
    let dl := pyLower details
    if gamblingBrands.any (fun b => pyIn b dl) then true
    else
      containsWordB "casino" dl || containsWordB "sportsbook" dl ||
      containsWordB "bet" dl || containsWordB "betting" dl

/-- `report_features._is_etransfer`
(`\b(interac|e-?transfer|etransfer|e\.t\.)\b` or `"autodeposit" in dl`). -/
def _is_etransfer (details : String) : Bool :=
  let dl := pyLower details
  containsWordB "interac" dl || containsWordB "e-transfer" dl ||
  containsWordB "etransfer" dl || containsWordBNonWordEnd "e.t." dl ||
  pyIn "autodeposit" dl

/-- `report_features._is_payroll`
(flag `is_payroll`, or `\b(payroll|pay ?cheque|paycheck|salary)\b`). -/
def _is_payroll (flags : List String) (details : String) : Bool :=
  let fl := flags.map pyLower
  if fl.contains "is_payroll" then true
  else
    let dl := pyLower details
    containsWordB "payroll" dl || containsWordB "paycheque" dl ||
    containsWordB "pay cheque" dl || containsWordB "paycheck" dl ||
    containsWordB "salary" dl

/-- `report_features._is_trustee`. -/
def _is_trustee (flags : List String) (category details : String) : Bool :=
  let f := pyLower (String.intercalate " " flags)
  let c := pyLower category
  let d := pyLower details
  pyIn "is_bankruptcy_trustee" f || pyIn "bankruptcy" c || pyIn "trustee" d

/-- `report_features._is_failed`
(flag substring `is_return`, or
`\b(return|reversal|nsf|insufficient|rejected|declined)\b`). -/
def _is_failed (flags : List String) (details : String) : Bool :=
  let f := pyLower (String.intercalate " " flags)
  let d := pyLower details
  if pyIn "is_return" f then true
  else
    ["return", "reversal", "nsf", "insufficient", "rejected", "declined"].any
      (fun w => containsWordB w d)

/-- `report_features._is_payday`. -/
def _is_payday (flags : List String) (category : String) : Bool :=
  let f := pyLower (String.intercalate " " flags)
  let c := pyLower category
  if pyIn "is_payday" f || pyIn "is_loan" f then true
  else matchAt c.toList "fees_and_charges/loans/payday".toList 0

/-- `report_features._payroll_from_payschedules`. -/
def _payroll_from_payschedules (acc : RAccount) (start_dt end_dt : Int) : Bool :=
  (acc.payschedules.getD []).any fun ps =>
    (ps.payments.getD []).any fun p =>
      match parse_dt (p.date.getD "") with
      | some dt =>
        start_dt ≤ dt && dt ≤ end_dt &&
          _is_payroll (p.flags.getD []) (p.details.getD "")
      | Option.none => false

/-- The per-transaction record built inside the flattening loop of
`extract_features_from_json`. -/
structure TxnRec where
  date : Int
  details : String
  category : String
  flags : List String
  direction : String
  amount : ℚ
  balance : ℚ
  counterparty : String

/-- Flatten the in-window transactions of one account, in order; the
first malformed amount string raises, exactly where `float()` would. -/
def txnsOfList (start_dt end_dt : Int) : List RTxn → Except String (List TxnRec)
  | [] => .ok []
  | t :: rest =>
    match parse_dt (t.date.getD "") with
    | Option.none => txnsOfList start_dt end_dt rest
    | some dt =>
      if ¬(start_dt ≤ dt ∧ dt ≤ end_dt) then
        txnsOfList start_dt end_dt rest
      else do
        let credit ← _to_float t.credit
        let debit ← _to_float t.debit
        let details := t.details.getD ""
        let direction := _direction credit debit details
        let amount := if direction == "credit" then credit else debit
        let balance ← _to_float t.balance
        let rec0 : TxnRec :=
          { date := dt
            details := details
            category := t.category.getD ""
            flags := (t.flags.getD []).map pyLower
            direction := direction
            amount := amount
            balance := balance
            counterparty := _canonical_counterparty details }
        let rest2 ← txnsOfList start_dt end_dt rest
        .ok (rec0 :: rest2)

/-- Flatten all accounts. -/
def txnsOfAccounts (start_dt end_dt : Int) :
    List RAccount → Except String (List TxnRec)
  | [] => .ok []
  | acc :: rest => do
    let t1 ← txnsOfList start_dt end_dt (acc.transactions.getD [])
    let t2 ← txnsOfAccounts start_dt end_dt rest
    .ok (t1 ++ t2)

/-- `collections.Counter` over a list of keys: counts in
first-occurrence order. -/
def counterOf (keys : List String) : List (String × Nat) :=
  keys.foldl
    (fun acc k =>
      if acc.any (fun kv => kv.1 == k) then
        acc.map (fun kv => if kv.1 == k then (kv.1, kv.2 + 1) else kv)
      else
        acc ++ [(k, 1)])
    []

/-- Stable insertion step for a descending-by-count sort. -/
def insertDescByCount (x : String × Nat) : List (String × Nat) → List (String × Nat)
  | [] => [x]
  | y :: rest => if x.2 ≤ y.2 then y :: insertDescByCount x rest else x :: y :: rest

/-- `Counter.most_common` ordering: stable sort, descending count. -/
def sortDescByCount (l : List (String × Nat)) : List (String × Nat) :=
  l.foldl (fun acc x => insertDescByCount x acc) []

/-- The payday predicate used inside the extractor. -/
def _is_payday_txn (x : TxnRec) : Bool :=
  _is_payday x.flags x.category

/-- The NSF regex of the extractor
(`\bnsf\b|\binsufficient funds\b|\bnon-?sufficient\b`). -/
def nsfDetails (details : String) : Bool :=
  let dl := pyLower details
  containsWordB "nsf" dl || containsWordB "insufficient funds" dl ||
  containsWordB "nonsufficient" dl || containsWordB "non-sufficient" dl

/-- `report_features.extract_features_from_json`.

`now` models `datetime.utcnow()`, which the source consults only when
the report's `complete_datetime` fails to parse.  The result is the
returned dictionary; a `ValueError` escaping `float()` becomes
`.error`. -/
def extract_features_from_json (resp : RReport) (window_days : Int) (now : Int) :
    Except String (List (String × PyVal)) := do
  let end_dt :=
    match parse_dt (resp.complete_datetime.getD "") with
    | some d => d
    | Option.none => now
  let start_dt := end_dt - 86400 * window_days
  let accounts := resp.accounts.getD []
  let txns ← txnsOfAccounts start_dt end_dt accounts
  let payroll_detected :=
    txns.any (fun x => _is_payroll x.flags x.details) ||
      accounts.any (fun acc => _payroll_from_payschedules acc start_dt end_dt)
  let etransfer_in :=
    txns.countP (fun x => _is_etransfer x.details && x.direction == "credit")
  let etransfer_out :=
    txns.countP (fun x => _is_etransfer x.details && x.direction == "debit")
  let gtx := txns.filter (fun x => _is_gambling x.category x.details)
  let gambling_txn_count := gtx.length
  let gambling_total := round2 ((gtx.map (fun x => |x.amount|)).foldl (· + ·) 0)
  let gambling_max := round2 ((gtx.map (fun x => |x.amount|)).foldl max 0)
  let trusteeP := fun x : TxnRec => _is_trustee x.flags x.category x.details
  let under_bp := txns.any trusteeP
  let trustee_payments :=
    txns.countP (fun x => trusteeP x && x.direction == "debit" && decide (0 < x.amount))
  let trustee_failed :=
    txns.countP (fun x => trusteeP x && _is_failed x.flags x.details)
  let lkeys := txns.filterMap
    (fun x => if _is_payday_txn x && x.counterparty != "" then some x.counterparty
              else Option.none)
  let lenders := counterOf lkeys
  let distinct_lenders := lenders.length
  let loan_deductions := txns.countP (fun x => _is_payday_txn x && x.direction == "debit")
  let new_loans := txns.countP (fun x => _is_payday_txn x && x.direction == "credit")
  let active_loans :=
    (txns.filterMap (fun x =>
      if _is_payday_txn x && x.direction == "debit" && x.counterparty != "" then
        some x.counterparty
      else Option.none)).dedup.length
  let nsf_count := txns.countP (fun x => nsfDetails x.details)
  let overdrafts :=
    txns.countP (fun x => pyIn "overdraft" (pyLower x.details) || decide (x.balance < 0))
  let total_inflow :=
    round2 ((txns.filter (fun x => x.direction == "credit")).foldl (fun a x => a + x.amount) 0)
  let total_outflow :=
    round2 ((txns.filter (fun x => x.direction == "debit")).foldl (fun a x => a + x.amount) 0)
  let top3 := ((sortDescByCount lenders).take 3).map (fun kv => PyVal.str kv.1)
  .ok [
    ("window_days", PyVal.int window_days),
    ("payroll_detected", PyVal.bool payroll_detected),
    ("etransfer_in_count_30d", PyVal.int etransfer_in),
    ("etransfer_out_count_30d", PyVal.int etransfer_out),
    ("nsf_count_30d", PyVal.int nsf_count),
    ("overdraft_hits_30d", PyVal.int overdrafts),
    ("gambling_detected", PyVal.bool (decide (0 < gambling_txn_count))),
    ("gambling_txn_count_30d", PyVal.int gambling_txn_count),
    ("gambling_total_amount_30d", PyVal.float gambling_total),
    ("gambling_max_single_amount", PyVal.float gambling_max),
    ("under_bankruptcy_or_consumer_proposal", PyVal.bool under_bp),
    ("trustee_payments_count", PyVal.int trustee_payments),
    ("trustee_failed_count", PyVal.int trustee_failed),
    ("new_loans_received_count", PyVal.int new_loans),
    ("loan_deductions_count", PyVal.int loan_deductions),
    ("distinct_lenders_count", PyVal.int distinct_lenders),
    ("existing_loans_count", PyVal.int active_loans),
    ("total_inflow_30d", PyVal.float total_inflow),
    ("total_outflow_30d", PyVal.float total_outflow),
    ("examples", PyVal.dict [("lenders_top3", PyVal.list top3)])
  ]

end ReportFeatures

/-! ### The correlation log (`notification_log.txt`)

One line per recorded event.  A line is either parseable JSON carrying
the fields the lookups read (`.entry`), or unparseable
(`Option.none`). -/

structure NEntry where
  name : Option String := Option.none
  status : Option String := Option.none
  guid : Option String := Option.none

/-- A log line: `Option.none` models a line `json.loads` rejects. -/
abbrev NotifLine := Option NEntry

/-- Does a parsed entry match the lookup? (`fn`, `ln` already lowered.) -/
def notifMatches (fn ln : String) (e : NEntry) : Bool :=
  let name := pyLower (e.name.getD "")
  let status := pyLower (e.status.getD "")
  pyIn fn name && pyIn ln name && status == "verified"

/-- The scan loop shared by `process_pending.find_guid_in_notifications`
and `formidable_receiver.find_guid_by_name`: first-to-last over the
file, skipping unparseable lines, returning the `guid` field of the
first matching entry (that field may itself be absent). -/
def findGuidScan (fn ln : String) : List NotifLine → Option String
  | [] => Option.none
  | line :: rest =>
    match line with
    | Option.none => findGuidScan fn ln rest
    | some e => if notifMatches fn ln e then e.guid else findGuidScan fn ln rest

/-- `process_pending.find_guid_in_notifications` (the receiver's
`find_guid_by_name` computes the same function of the log). -/
def find_guid_in_notifications (first_name last_name : String)
    (log : List NotifLine) : Option String :=
  findGuidScan (pyLower first_name) (pyLower last_name) log

/-! ### The decision ledger (`payday_loan_decisions.json`) -/

/-- One decision record.  The fields mirror the dictionaries written by
`process_pending` (float amount) and by the webhook (raw values), so
amounts and decision payloads are `PyVal`. -/
structure DecisionEntry where
  first_name : String := ""
  last_name : String := ""
  guid : Option String := Option.none
  loan_type : Option String := Option.none
  loan_amount : PyVal := PyVal.none
  decision : PyVal := PyVal.none
  approved_amount : PyVal := PyVal.none
  rationale : PyVal := PyVal.none
  timestamp : Option String := Option.none

/-- The dedup key `(d.get("guid"), d.get("timestamp"))`. -/
def dkey (d : DecisionEntry) : Option String × Option String :=
  (d.guid, d.timestamp)

/-- The pure core of `process_pending.append_unique_decision` (lines
55–65): the ledger list before and after, plus the returned flag.  The
surrounding file lock and atomic write are modelled with the drain
below. -/
def append_unique_decision (entry : DecisionEntry) (data : List DecisionEntry) :
    List DecisionEntry × Bool :=
  if (data.map dkey).contains (dkey entry) then (data, false)
  else (data ++ [entry], true)

/-- Ledger file contents as seen by the webhook's tolerant reader. -/
inductive LedgerFile where
  | missing
  | invalid (raw : String)
  | valid (entries : List DecisionEntry)

/-- The webhook's read of `payday_loan_decisions.json` (lines 312–319):
missing or non-parsing files give `[]`. -/
def webhookReadLedger : LedgerFile → List DecisionEntry
  | .missing => []
  | .invalid _ => []
  | .valid l => l

/-- The webhook's decision save (lines 312–335): a plain
`all_decisions.append(entry)` with no dedup. -/
def webhook_save_decision (entry : DecisionEntry) (f : LedgerFile) : LedgerFile :=
  .valid (webhookReadLedger f ++ [entry])

/-! ### The pending queue (`pending_queue.json`) -/

/-- A stored queue entry (the five keys `add_to_pending_queue` writes;
`{**existing, **item}` overwrites all five, so extra keys of a stored
entry play no role in the modelled behaviour). -/
structure QEntry where
  first_name : String := ""
  last_name : String := ""
  loan_type : String := ""
  loan_amount : String := ""
  timestamp : Option String := Option.none
deriving DecidableEq

/-- An incoming applicant item (`item.get(k, default)` reads). -/
structure QItem where
  first_name : Option String := Option.none
  last_name : Option String := Option.none
  loan_type : Option String := Option.none
  loan_amount : Option String := Option.none
  timestamp : Option String := Option.none

/-- The "ensure minimal shape" normalisation at the top of
`add_to_pending_queue`. -/
def normalizeItem (i : QItem) : QEntry :=
  { first_name := pyStrip (i.first_name.getD "")
    last_name := pyStrip (i.last_name.getD "")
    loan_type := i.loan_type.getD "payday"
    loan_amount := i.loan_amount.getD ""
    timestamp := i.timestamp }

/-- The `(first_name, last_name, loan_type)` key, lower-cased, used for
both the new item and stored entries. -/
def qkey (e : QEntry) : String × String × String :=
  (pyLower e.first_name, pyLower e.last_name, pyLower e.loan_type)

/-- The upsert scan: replace the first entry with a matching key
(`queue[i] = {**existing, **item}`, i.e. all five modelled fields become
the new item's), else append at the end. -/
def upsertEntry (n : QEntry) : List QEntry → List QEntry
  | [] => [n]
  | e :: rest => if qkey e == qkey n then n :: rest else e :: upsertEntry n rest

/-- Queue file contents.  `.invalid` covers content `json.load` rejects
as well as valid JSON that is not a list (both are coerced to `[]` by
the readers). -/
inductive QueueFile where
  | missing
  | invalid (raw : String)
  | valid (q : List QEntry)
deriving DecidableEq

/-- The tolerant queue read of `add_to_pending_queue` (lines 158–168). -/
def readQueueTolerant : QueueFile → List QEntry
  | .missing => []
  | .invalid _ => []
  | .valid q => q

/-- `formidable_receiver.add_to_pending_queue`. -/
def add_to_pending_queue (i : QItem) (f : QueueFile) : QueueFile :=
  .valid (upsertEntry (normalizeItem i) (readQueueTolerant f))

/-! ### The file lock (`process_pending.file_lock`)

Time is modelled in units of the poll interval; `timeout` is the
configured timeout in the same units.  `heldUntil` is the instant at
which the external holder releases the lock file (`Option.none`: never,
i.e. held for longer than any timeout). -/

/-- Is the lock file absent at time `t`? -/
def lockFreeAt (heldUntil : Option Nat) (t : Nat) : Bool :=
  match heldUntil with
  | Option.none => false
  | some u => u ≤ t

inductive LockOutcome where
  | acquired (t : Nat)
  | timedOut
deriving DecidableEq

/-- The acquisition loop of `file_lock`: attempt `os.open(..., O_EXCL)`;
on `FileExistsError`, raise `TimeoutError` once more than `timeout` has
elapsed, else sleep one poll interval and retry.  (`elapsed` reaches at
most `timeout + 1` before the raise fires, so the wrapper's fuel of
`timeout + 2` is never exhausted.) -/
def fileLockGo (heldUntil : Option Nat) (start timeout : Nat) :
    Nat → Nat → LockOutcome
  | 0, _ => .timedOut
  | fuel + 1, elapsed =>
    if lockFreeAt heldUntil (start + elapsed) then .acquired (start + elapsed)
    else if timeout < elapsed then .timedOut
    else fileLockGo heldUntil start timeout fuel (elapsed + 1)

def file_lock_acquire (heldUntil : Option Nat) (start timeout : Nat) : LockOutcome :=
  fileLockGo heldUntil start timeout (timeout + 2) 0

/-- `append_unique_decision` including its `file_lock` on
`payday_loan_decisions.json.lock`: a `TimeoutError` propagates, an
acquired lock runs the deduplicated append. -/
def append_unique_decision_locked (heldUntil : Option Nat) (start timeout : Nat)
    (entry : DecisionEntry) (data : List DecisionEntry) :
    Except String (List DecisionEntry × Bool) :=
  match file_lock_acquire heldUntil start timeout with
  | .timedOut => .error "TimeoutError: Could not acquire lock"
  | .acquired _ => .ok (append_unique_decision entry data)

/-! ### The drain cycle (`process_pending.process_pending`) -/

/-- Observable actions of the intake/drain code, used to state which
operations (lock acquisitions, queue and ledger accesses, external
calls) an execution performs. -/
inductive Event where
  | lockAcquire (path : String)
  | queueRead
  | queueWrite
  | logLookup
  | fetchReport (guid : String)
  | analyzeCall
  | ledgerAppend
deriving DecidableEq

/-- Durable state visible to `process_pending`.  `queueLockHeldUntil`
records until when an external party holds `pending_queue.json.lock`
(`Option.none`: forever); the source never consults that lock during
the drain, which is exactly the point of claim C7. -/
structure PendingState where
  queueFile : QueueFile
  notifLog : List NotifLine
  ledgerFile : LedgerFile
  queueLockHeldUntil : Option Nat := Option.none

/-- `float(loan_amount_raw)` with the `except: loan_amount = 0.0`
around it (`process_pending` lines 102–107). -/
def parse_loan_amount (raw : String) : ℚ :=
  match pyParseFloat (pyStrip raw) with
  | some q => q
  | Option.none => 0

/-- One applicant of the drain loop.  After a successful correlation
lookup the source runs

  `report = fetch_report(guid)`
  `report_dict, text_summary = convert_to_text(report)`

but `convert_to_text` returns a single long string, so the two-name
unpack always raises `ValueError` (and the subsequent call
`analyze_bank_statement(report_dict, text_summary, loan_amount)` would
pass three arguments to a two-parameter function).  The per-applicant
`except` therefore always requeues a matched applicant; we model the
body after the fetch attempt as that exception. -/
def drainStep (log : List NotifLine) (acc : List QEntry × List Event)
    (a : QEntry) : List QEntry × List Event :=
  let first := pyStrip a.first_name
  let last := pyStrip a.last_name
  let _ := parse_loan_amount a.loan_amount
  match find_guid_in_notifications first last log with
  | Option.none => (acc.1 ++ [a], acc.2 ++ [.logLookup])
  | some guid =>
    if guid == "" then
      -- `if not guid:` treats an empty guid as no match
      (acc.1 ++ [a], acc.2 ++ [.logLookup])
    else
      (acc.1 ++ [a], acc.2 ++ [.logLookup, .fetchReport guid])

/-- `process_pending.process_pending`: the tolerant queue read, the
early return on an empty queue, the per-applicant loop, and the final
queue write-back.  The result also carries the event trace and the
overall outcome (`.ok` = the function returned normally). -/
def process_pending (st : PendingState) :
    PendingState × List Event × Except String Unit :=
  let queue : List QEntry :=
    match st.queueFile with
    | .valid q => q
    | _ => []  -- missing file reads as [], invalid JSON is caught and coerced to []
  if queue.isEmpty then
    (st, [.queueRead], .ok ())
  else
    let (new_queue, evs) := queue.foldl (drainStep st.notifLog) ([], [])
    ({ st with queueFile := .valid new_queue },
     [.queueRead] ++ evs ++ [.queueWrite], .ok ())

/-! ### The payday webhook (`formidable_receiver.payday_webhook`) -/

/-- A form submission (`data.get(k, default)` reads). -/
structure WebForm where
  first_name : Option String := Option.none
  last_name : Option String := Option.none
  loan_type : Option String := Option.none
  loan_amount : Option String := Option.none
  address : Option String := Option.none

/-- One record of `skipped_province.json`. -/
structure SkippedEntry where
  first_name : String
  last_name : String
  address : String
  detected_province : String
  loan_type : String
  loan_amount : String
  timestamp : String
deriving DecidableEq

/-- Skipped-file contents (`.invalid`: content `json.load` rejects). -/
inductive SkippedFile where
  | missing
  | invalid (raw : String)
  | valid (l : List SkippedEntry)
deriving DecidableEq

def readSkippedTolerant : SkippedFile → List SkippedEntry
  | .missing => []
  | .invalid _ => []
  | .valid l => l

/-- The province table of `payday_webhook`, in source order. -/
def all_known_provinces : List (String × List String) :=
  [("ontario", ["ontario", "on"]),
   ("alberta", ["alberta", "ab"]),
   ("british columbia", ["british columbia", "bc"]),
   ("saskatchewan", ["saskatchewan", "sk"]),
   ("manitoba", ["manitoba", "mb"]),
   ("quebec", ["quebec", "qc"]),
   ("new brunswick", ["new brunswick", "nb"]),
   ("nova scotia", ["nova scotia", "ns"]),
   ("newfoundland", ["newfoundland", "nl"]),
   ("prince edward island", ["prince edward island", "pei"])]

def allowed_provinces : List String := ["ontario", "alberta"]

/-- The four delimiter patterns the webhook tests for one variant
(`address` is already stripped and lower-cased). -/
def province_variant_match (variant address : String) : Bool :=
  pyIn (" " ++ variant ++ " ") (" " ++ address ++ " ") ||
  pyIn ("," ++ variant ++ ",") address ||
  pyIn ("," ++ variant ++ " ") address ||
  pyIn (" " ++ variant ++ ",") address

/-- The detection loop: first province (in table order) one of whose
variants matches. -/
def detectProvinceIn (address : String) :
    List (String × List String) → Option String
  | [] => Option.none
  | (p, vs) :: rest =>
    if vs.any (fun v => province_variant_match v address) then some p
    else detectProvinceIn address rest

def detect_province (address : String) : Option String :=
  detectProvinceIn address all_known_provinces

/-- `detected_province not in allowed_provinces` (Python `None` is not
in the list). -/
def provinceAllowed (detected : Option String) : Bool :=
  match detected with
  | some p => allowed_provinces.contains p
  | Option.none => false

/-- Durable state visible to the webhook. -/
structure WebState where
  notifLog : List NotifLine
  queueFile : QueueFile
  skippedFile : SkippedFile
  ledgerFile : LedgerFile

/-- `formidable_receiver.payday_webhook`.

`now` models `datetime.now().strftime(...)`; `analyzeO` models the
composite external step `fetch_report` + `convert_to_text` +
`analyze_bank_statement` of the report-found branch (an `.error` is an
exception reaching the outer `except`, which answers 500).  The log is
fixed during the handler, so each of the up-to-10 polling attempts of
`find_guid_by_name` sees the same answer.  Returns the HTTP status, the
new state, and the event trace. -/
def payday_webhook (form : WebForm) (st : WebState) (now : String)
    (analyzeO : String → Except String (List (String × PyVal))) :
    Nat × WebState × List Event :=
  let first_name := pyStrip (form.first_name.getD "")
  let last_name := pyStrip (form.last_name.getD "")
  let loan_type := form.loan_type.getD "payday"
  let loan_amount := form.loan_amount.getD ""
  let address := pyLower (pyStrip (form.address.getD ""))
  let detected := detect_province address
  if !provinceAllowed detected then
    let entry : SkippedEntry :=
      { first_name := first_name
        last_name := last_name
        address := address
        detected_province := detected.getD "unknown"
        loan_type := loan_type
        loan_amount := loan_amount
        timestamp := now }
    let skipped := readSkippedTolerant st.skippedFile
    (403, { st with skippedFile := .valid (skipped ++ [entry]) }, [])
  else
    let g := find_guid_in_notifications first_name last_name st.notifLog
    let guid : Option String :=
      match g with
      | some s => if s == "" then Option.none else some s  -- `if guid:` truthiness
      | Option.none => Option.none
    let lookups : List Event :=
      match guid with
      | some _ => [.logLookup]            -- found on the first attempt, loop breaks
      | Option.none => List.replicate 10 .logLookup  -- 10 polling attempts
    match guid with
    | Option.none =>
      let item : QItem :=
        { first_name := some first_name
          last_name := some last_name
          loan_type := some loan_type
          loan_amount := some loan_amount
          timestamp := some now }
      (202, { st with queueFile := add_to_pending_queue item st.queueFile },
       lookups ++ [.queueRead, .queueWrite])
    | some gd =>
      match analyzeO gd with
      | .error _ => (500, st, lookups ++ [.fetchReport gd, .analyzeCall])
      | .ok decision =>
        let entry : DecisionEntry :=
          { first_name := first_name
            last_name := last_name
            guid := some gd
            loan_type := some loan_type
            loan_amount := PyVal.str loan_amount
            decision := dictGetD decision "decision" PyVal.none
            approved_amount := dictGetD decision "approved_amount" PyVal.none
            rationale := dictGetD decision "rationale" PyVal.none
            timestamp := some now }
        (200, { st with ledgerFile := webhook_save_decision entry st.ledgerFile },
         lookups ++ [.fetchReport gd, .analyzeCall, .ledgerAppend])

/-! ### A JSON reader (model of `json.loads`)

Strict JSON as `json.loads` accepts it (objects, arrays, strings with
the standard escapes, numbers, `true`/`false`/`null`); the non-standard
`NaN`/`Infinity` extensions and `\u` surrogate pairs are outside the
model.  Numbers without fraction or exponent load as `PyVal.int`,
others as `PyVal.float`, mirroring Python's `int`/`float` split. -/

def braceOpen : Char := Char.ofNat 123
def braceClose : Char := Char.ofNat 125

def jWs (c : Char) : Bool :=
  c == ' ' || c == '\t' || c == '\n' || c == '\r'

def skipJWs (l : List Char) : List Char := l.dropWhile jWs

def hexVal? (c : Char) : Option Nat :=
  if c.isDigit then some (digitVal c)
  else if 'a' ≤ c ∧ c ≤ 'f' then some (c.toNat - 'a'.toNat + 10)
  else if 'A' ≤ c ∧ c ≤ 'F' then some (c.toNat - 'A'.toNat + 10)
  else Option.none

/-- Parse the remainder of a JSON string (the opening quote already
consumed). -/
def jStringGo (acc : List Char) (l : List Char) : Option (String × List Char) :=
  match l with
  | [] => Option.none
  | c :: rest =>
    if c == '"' then some (⟨acc.reverse⟩, rest)
    else if c == '\\' then
      match rest with
      | [] => Option.none
      | e :: rest2 =>
        if e == '"' then jStringGo ('"' :: acc) rest2
        else if e == '\\' then jStringGo ('\\' :: acc) rest2
        else if e == '/' then jStringGo ('/' :: acc) rest2
        else if e == 'b' then jStringGo (Char.ofNat 8 :: acc) rest2
        else if e == 'f' then jStringGo (Char.ofNat 12 :: acc) rest2
        else if e == 'n' then jStringGo ('\n' :: acc) rest2
        else if e == 'r' then jStringGo ('\r' :: acc) rest2
        else if e == 't' then jStringGo ('\t' :: acc) rest2
        else if e == 'u' then
          match rest2 with
          | h1 :: h2 :: h3 :: h4 :: rest3 =>
            match hexVal? h1, hexVal? h2, hexVal? h3, hexVal? h4 with
            | some a, some b, some c1, some d =>
              jStringGo (Char.ofNat (((a * 16 + b) * 16 + c1) * 16 + d) :: acc) rest3
            | _, _, _, _ => Option.none
          | _ => Option.none
        else Option.none
    else if c.toNat < 32 then Option.none  -- unescaped control characters are rejected
    else jStringGo (c :: acc) rest

/-- Parse a JSON number (first character is `-` or a digit). -/
def parseJNum (l : List Char) : Option (PyVal × List Char) :=
  let (neg, l1) :=
    match l with
    | '-' :: rest => (true, rest)
    | rest => (false, rest)
  match l1 with
  | '0' :: rest =>
    parseJNumTail neg 0 rest
  | c :: _ =>
    if c.isDigit && c != '0' then
      let (ds, rest) := spanDigits l1
      parseJNumTail neg (digitsToNat ds) rest
    else Option.none
  | [] => Option.none
where
  /-- Fraction and exponent parts after the integer part. -/
  parseJNumTail (neg : Bool) (ip : Nat) (l : List Char) :
      Option (PyVal × List Char) :=
    let (fpart, l2, isFloat1) :=
      match l with
      | '.' :: rest =>
        let (fd, rest2) := spanDigits rest
        (some fd, rest2, true)
      | rest => (some [], rest, false)
    match fpart with
    | Option.none => Option.none
    | some fd =>
      if isFloat1 && fd.isEmpty then Option.none
      else
        let base : ℚ := (ip : ℚ) + (digitsToNat fd : ℚ) / ((10 : ℚ) ^ fd.length)
        match l2 with
        | e :: rest =>
          if e == 'e' || e == 'E' then
            let (esgn, rest2) :=
              match rest with
              | '+' :: r => ((1 : Int), r)
              | '-' :: r => ((-1 : Int), r)
              | r => ((1 : Int), r)
            let (ed, rest3) := spanDigits rest2
            if ed.isEmpty then Option.none
            else
              let q := base * (10 : ℚ) ^ (esgn * (digitsToNat ed : Int))
              some (.float (if neg then -q else q), rest3)
          else
            if isFloat1 then some (.float (if neg then -base else base), l2)
            else some (.int (if neg then -(ip : Int) else (ip : Int)), l2)
        | [] =>
          if isFloat1 then some (.float (if neg then -base else base), [])
          else some (.int (if neg then -(ip : Int) else (ip : Int)), [])

mutual

/-- Parse one JSON value (fuel-indexed; the fuel supplied by
`jsonParse` strictly dominates the recursion depth). -/
def parseJVal : Nat → List Char → Option (PyVal × List Char)
  | 0, _ => Option.none
  | fuel + 1, l =>
    let l := skipJWs l
    match l with
    | [] => Option.none
    | c :: rest =>
      if c == 'n' then
        if matchAt l "null".toList 0 then some (.none, l.drop 4) else Option.none
      else if c == 't' then
        if matchAt l "true".toList 0 then some (.bool true, l.drop 4) else Option.none
      else if c == 'f' then
        if matchAt l "false".toList 0 then some (.bool false, l.drop 5) else Option.none
      else if c == '"' then
        match jStringGo [] rest with
        | some (s, r) => some (.str s, r)
        | Option.none => Option.none
      else if c == braceOpen then
        match skipJWs rest with
        | d :: r2 =>
          if d == braceClose then some (.dict [], r2)
          else parseJObjItems fuel (skipJWs rest) []
        | [] => Option.none
      else if c == '[' then
        match skipJWs rest with
        | d :: r2 =>
          if d == ']' then some (.list [], r2)
          else parseJArrItems fuel (skipJWs rest) []
        | [] => Option.none
      else if c == '-' || c.isDigit then
        parseJNum l
      else Option.none

/-- Parse the members of a non-empty object, after the opening brace. -/
def parseJObjItems : Nat → List Char → List (String × PyVal) →
    Option (PyVal × List Char)
  | 0, _, _ => Option.none
  | fuel + 1, l, acc =>
    match l with
    | c :: rest =>
      if c == '"' then
        match jStringGo [] rest with
        | some (k, r) =>
          match skipJWs r with
          | ':' :: r2 =>
            match parseJVal fuel r2 with
            | some (v, r3) =>
              match skipJWs r3 with
              | ',' :: r4 => parseJObjItems fuel (skipJWs r4) (acc ++ [(k, v)])
              | d :: r4 =>
                if d == braceClose then some (.dict (acc ++ [(k, v)]), r4)
                else Option.none
              | [] => Option.none
            | Option.none => Option.none
          | _ => Option.none
        | Option.none => Option.none
      else Option.none
    | [] => Option.none

/-- Parse the items of a non-empty array, after the opening bracket. -/
def parseJArrItems : Nat → List Char → List PyVal → Option (PyVal × List Char)
  | 0, _, _ => Option.none
  | fuel + 1, l, acc =>
    match parseJVal fuel l with
    | some (v, r) =>
      match skipJWs r with
      | ',' :: r2 => parseJArrItems fuel r2 (acc ++ [v])
      | d :: r2 => if d == ']' then some (.list (acc ++ [v]), r2) else Option.none
      | [] => Option.none
    | Option.none => Option.none

end

/-- `json.loads` (strict): the whole input must be one value, with only
whitespace around it. -/
def jsonParse (s : String) : Option PyVal :=
  match parseJVal (2 * s.length + 4) s.toList with
  | some (v, rest) => if (skipJWs rest).isEmpty then some v else Option.none
  | Option.none => Option.none

/-! ### loan_analyzer.py -/

namespace LoanAnalyzer

/-- Python `str()` of a float, for the exact-decimal rationals this code
produces (sums of two-decimal literals): minimal decimal expansion with
at least one fractional digit.  Other rationals fall back to the `ℚ`
printer (never reached by the modelled flows). -/
def pyFloatStr (q : ℚ) : String :=
  let sign := if q < 0 then "-" else ""
  let a := |q|
  match (List.range 41).find? (fun k => (a * (10 : ℚ) ^ k).den == 1) with
  | some k =>
    let m := (a * (10 : ℚ) ^ k).num.natAbs
    if k == 0 then sign ++ toString m ++ ".0"
    else
      let s := toString m
      let s :=
        if s.length ≤ k then ⟨List.replicate (k + 1 - s.length) '0'⟩ ++ s else s
      sign ++ ⟨s.toList.take (s.length - k)⟩ ++ "." ++ ⟨s.toList.drop (s.length - k)⟩
  | Option.none => sign ++ toString a

/-- A single quote character (for the Python `repr` of strings). -/
def sq : String := ⟨[Char.ofNat 39]⟩

mutual

/-- Python `str()` of a parsed JSON value (approximate; feeds only
free-text rationale messages). -/
def jvalStr : PyVal → String
  | .none => "None"
  | .bool true => "True"
  | .bool false => "False"
  | .int n => toString n
  | .float q => pyFloatStr q
  | .str s => s
  | .list xs => "[" ++ String.intercalate ", " (jvalReprList xs) ++ "]"
  | .dict xs => "\x7b" ++ String.intercalate ", " (jvalReprPairs xs) ++ "\x7d"

def jvalRepr : PyVal → String
  | .str s => sq ++ s ++ sq
  | v => jvalStr v

def jvalReprList : List PyVal → List String
  | [] => []
  | v :: rest => jvalRepr v :: jvalReprList rest

def jvalReprPairs : List (String × PyVal) → List String
  | [] => []
  | (k, v) :: rest => (sq ++ k ++ sq ++ ": " ++ jvalRepr v) :: jvalReprPairs rest

end

/-- The error dictionary `safe_parse_json` / `analyze_bank_statement`
build on failure. -/
def errDict (msg : String) : List (String × PyVal) :=
  [("decision", .str "Error"), ("approved_amount", PyVal.none),
   ("rationale", .str msg)]

/-- `re.sub(r"^```json", "", s, flags=re.IGNORECASE)`: the pattern is
anchored, so at most the 7-character prefix is removed. -/
def stripJsonFence (s : String) : String :=
  if matchAt (pyLower s).toList "```json".toList 0 then ⟨s.toList.drop 7⟩ else s

/-- `re.sub(r"^```|```$", "", s)`: one pass removes a leading and then a
trailing fence from what remains. -/
def stripEdgeFences (s : String) : String :=
  let l := s.toList
  let l1 := if matchAt l "```".toList 0 then l.drop 3 else l
  if matchAt l1 "```".toList (l1.length - 3) && 3 ≤ l1.length then
    ⟨l1.take (l1.length - 3)⟩
  else ⟨l1⟩

/-- `re.search(r"\{.*\}", s, flags=re.DOTALL)`: from the first opening
brace to the last closing brace after it, if any. -/
def extractBraces (s : String) : Option String :=
  let l := s.toList
  match l.findIdx? (fun c => c == braceOpen) with
  | Option.none => Option.none
  | some i =>
    let js := (List.range l.length).filter
      (fun j => i < j && l.getD j ' ' == braceClose)
    match js.getLast? with
    | Option.none => Option.none
    | some j => some ⟨(l.take (j + 1)).drop i⟩

/-- `loan_analyzer.safe_parse_json`. -/
def safe_parse_json (message : Option String) : List (String × PyVal) :=
  match message with
  | Option.none => errDict "No content returned from model."
  | some message =>
    let cleaned := pyStrip message
    let cleaned := pyStrip (stripJsonFence cleaned)
    let cleaned := pyStrip (stripEdgeFences cleaned)
    let cleaned := pyStrip (pyDelete "```" cleaned)
    let cleaned :=
      match extractBraces cleaned with
      | some sub => sub
      | Option.none => cleaned
    match jsonParse cleaned with
    | some (.dict d) => d
    | some v =>
      [("decision", .str "Error"), ("approved_amount", PyVal.none),
       ("rationale", .str ("Non-object JSON returned by model: " ++ jvalStr v))]
    | Option.none =>
      [("decision", .str "Error"), ("approved_amount", PyVal.none),
       ("rationale", .str message)]

/-- `str.splitlines` (ASCII newline conventions). -/
def splitlinesGo (cur : List Char) : List Char → List String
  | [] => if cur.isEmpty then [] else [⟨cur.reverse⟩]
  | '\r' :: '\n' :: rest => (⟨cur.reverse⟩ : String) :: splitlinesGo [] rest
  | '\r' :: rest => (⟨cur.reverse⟩ : String) :: splitlinesGo [] rest
  | '\n' :: rest => (⟨cur.reverse⟩ : String) :: splitlinesGo [] rest
  | c :: rest => splitlinesGo (c :: cur) rest

def pySplitlines (s : String) : List String :=
  splitlinesGo [] s.toList

/-- `loan_analyzer.GAMBLING_BRANDS`. -/
def GAMBLING_BRANDS : List String :=
  ["betano", "bet365", "betmgm", "draftkings", "fanduel", "thescore", "northstar",
   "bet99", "tonybet", "betway", "unibet", "pinnacle", "sports interaction",
   "rivalry", "powerplay", "leovegas", "888", "32red", "stake", "pokerstars",
   "partypoker", "ggpoker", "olg", "proline", "mise-o-jeu", "loto-québec",
   "alc", "wclc", "playnow", "great canadian", "gateway", "fallsview",
   "caesars windsor", "casino rama"]

/-- `loan_analyzer.GAMBLING_KEYWORDS`
(`gambl`, `casino`, `\blotto\b`, `lottery`, `sportsbook`, `\bbet\b`,
`betting`), evaluated case-insensitively on a line. -/
def gamblingKeywordHit (ll : String) : Bool :=
  pyIn "gambl" ll || pyIn "casino" ll || containsWordB "lotto" ll ||
  pyIn "lottery" ll || pyIn "sportsbook" ll || containsWordB "bet" ll ||
  pyIn "betting" ll

/-- `entertainment\s*/\s*gambling`. -/
def entSlashGambling (ll : String) : Bool :=
  let l := ll.toList
  (List.range (l.length + 1)).any fun i =>
    matchAt l "entertainment".toList i &&
    (match (l.drop (i + 13)).dropWhile pyIsSpace with
     | c :: r2 => c == '/' && matchAt (r2.dropWhile pyIsSpace) "gambling".toList 0
     | [] => false)

/-- `/gambling\b`. -/
def slashGamblingB (ll : String) : Bool :=
  let l := ll.toList
  (List.range (l.length + 1)).any fun i =>
    matchAt l "/gambling".toList i && rightBoundary l (i + 9)

/-- Does the combined gambling regex of `extract_gambling_stats` match
the line (`re.I`)? -/
def gamblingLine (ln : String) : Bool :=
  let ll := pyLower ln
  GAMBLING_BRANDS.any (fun b => pyIn b ll) || gamblingKeywordHit ll ||
  entSlashGambling ll || slashGamblingB ll

/-! The amount regex
`(?<!\d)(\d{1,3}(?:[,\s]\d{3})*(?:\.\d{2})?)`, applied by `re.findall`
to the line with commas removed.  Every component after `\d{1,3}` can
match the empty string, so the greedy walk below is exactly the
backtracking regex engine's result. -/

def sepCharA (c : Char) : Bool := c == ',' || pyIsSpace c

/-- Length of the digit run starting at `i`. -/
def countDigitsFrom (s : List Char) (i : Nat) : Nat :=
  ((s.drop i).takeWhile Char.isDigit).length

/-- Loop for the greedy `(?:[,\s]\d{3})*` walk: each step needs
`p < s.length` and advances `p` by 4, so the wrapper's fuel is never
exhausted. -/
def amountStarGo (s : List Char) : Nat → Nat → Nat
  | 0, p => p
  | fuel + 1, p =>
    if p < s.length ∧ sepCharA (s.getD p ' ') ∧ 3 ≤ countDigitsFrom s (p + 1) then
      amountStarGo s fuel (p + 4)
    else p

/-- End position after the greedy `(?:[,\s]\d{3})*` loop. -/
def amountStarEnd (s : List Char) (p : Nat) : Nat :=
  amountStarGo s (s.length + 1) p

theorem amountStarGo_ge (s : List Char) (fuel p : Nat) : p ≤ amountStarGo s fuel p := by
  induction fuel generalizing p with
  | zero => simp [amountStarGo]
  | succ f ih =>
    unfold amountStarGo
    split
    · have := ih (p + 4)
      omega
    · omega

theorem amountStarEnd_ge (s : List Char) (p : Nat) : p ≤ amountStarEnd s p :=
  amountStarGo_ge s (s.length + 1) p

/-- End position of the regex match starting at a digit at `i`
(`\d{1,3}` greedy, then the separator groups, then `(?:\.\d{2})?`). -/
def amountMatchEnd (s : List Char) (i : Nat) : Nat :=
  let k1 := min 3 (countDigitsFrom s i)
  let p := amountStarEnd s (i + k1)
  if s.getD p ' ' == '.' && (s.getD (p + 1) ' ').isDigit &&
      (s.getD (p + 2) ' ').isDigit then
    p + 3
  else p

theorem countDigitsFrom_pos (s : List Char) (i : Nat) (h1 : i < s.length)
    (h2 : (s.getD i ' ').isDigit = true) : 1 ≤ countDigitsFrom s i := by
  unfold countDigitsFrom
  rw [List.drop_eq_getElem_cons h1]
  simp only [List.takeWhile]
  rw [List.getD_eq_getElem s ' ' h1] at h2
  simp [h2]

theorem amountMatchEnd_gt (s : List Char) (i : Nat) (h1 : i < s.length)
    (h2 : (s.getD i ' ').isDigit = true) : i < amountMatchEnd s i := by
  unfold amountMatchEnd
  have ha := amountStarEnd_ge s (i + min 3 (countDigitsFrom s i))
  have hb := countDigitsFrom_pos s i h1 h2
  have hc : 1 ≤ min 3 (countDigitsFrom s i) := by omega
  dsimp only
  split <;> omega

/-- Loop of `amountFindall`.  `amountMatchEnd_gt` shows the position
strictly increases at every step, so the wrapper's fuel (`s.length + 1`)
is never exhausted. -/
def amountFindallGo (s : List Char) : Nat → Nat → List String
  | 0, _ => []
  | fuel + 1, i =>
    if i < s.length then
      if (s.getD i ' ').isDigit && (i == 0 || !(s.getD (i - 1) ' ').isDigit) then
        let e := amountMatchEnd s i
        (⟨(s.take e).drop i⟩ : String) :: amountFindallGo s fuel e
      else amountFindallGo s fuel (i + 1)
    else []

/-- `re.findall` for the amount regex: scan left to right, emit each
match, resume directly after it; the lookbehind `(?<!\d)` consults the
original character before the current position. -/
def amountFindall (s : List Char) (i : Nat) : List String :=
  amountFindallGo s (s.length + 1) i

/-- The amount extracted from one gambling line: the last regex match
on the comma-stripped line, through `abs(float(...))`; `Option.none`
when there is no match or `float()` raises (`except: pass`). -/
def lineAmount (ln : String) : Option ℚ :=
  let am := amountFindall (pyDelete "," ln).toList 0
  match am.getLast? with
  | Option.none => Option.none
  | some m => (pyParseFloat m).map (fun q => |q|)

/-- The fields of `extract_gambling_stats` that flow into the returned
decision.  (`gambling_unique_merchants` and the merchant-guess regex
feed only the prompt sent to the external model and are not modelled.) -/
structure GStats where
  gambling_txn_count_30d : Nat
  gambling_total_amount_30d : ℚ
  gambling_max_single_amount : ℚ
  gambling_detected : Bool
  gambling_example_lines : List String
deriving DecidableEq

/-- `loan_analyzer.extract_gambling_stats`. -/
def extract_gambling_stats (report_text : String) : GStats :=
  if report_text == "" then
    { gambling_txn_count_30d := 0
      gambling_total_amount_30d := 0
      gambling_max_single_amount := 0
      gambling_detected := false
      gambling_example_lines := [] }
  else
    let lines := ((pySplitlines report_text).map pyStrip).filter (fun l => l != "")
    let gambling_lines := lines.filter gamblingLine
    let amounts := gambling_lines.filterMap lineAmount
    { gambling_txn_count_30d := gambling_lines.length
      gambling_total_amount_30d :=
        if amounts.isEmpty then 0 else round2 (amounts.foldl (· + ·) 0)
      gambling_max_single_amount :=
        if amounts.isEmpty then 0 else amounts.foldl max 0
      gambling_detected := decide (0 < gambling_lines.length)
      gambling_example_lines := gambling_lines.take 5 }

/-- The guardrail sentence appended to the rationale
(`f" Gambling detected: {g_count} txn(s), total ${g_total}, max single
${g_max}."`). -/
def gamblingSuffix (g_count : Nat) (g_total g_max : ℚ) : String :=
  " Gambling detected: " ++ toString g_count ++ " txn(s), total $" ++
    pyFloatStr g_total ++ ", max single $" ++ pyFloatStr g_max ++ "."

/-- `loan_analyzer.analyze_bank_statement`.

`modelResp` is the outcome of the external OpenAI call: `.ok content`
is `response.choices[0].message.content.strip()`; `.error e` is any
exception up to and including that expression (network failure, `None`
content).  The `loan_amount` argument feeds only the prompt.  The
gambling pre-scan, the defensive parse, and the post-parse guardrail
are computed exactly as in the source; note that
`result.get("rationale", "").rstrip()` raises `AttributeError` when the
parsed rationale is not a string, and that exception is caught by the
same `except Exception` as the network call, yielding the error
sentinel. -/
def analyze_bank_statement (report_text : String) (loan_amount : String)
    (modelResp : Except String String) : List (String × PyVal) :=
  let _ := loan_amount
  let base_g := extract_gambling_stats report_text
  let g_count := base_g.gambling_txn_count_30d
  let g_total := base_g.gambling_total_amount_30d
  let g_max := base_g.gambling_max_single_amount
  match modelResp with
  | .error e => errDict e
  | .ok content =>
    let result := safe_parse_json (some (pyStrip content))
    if base_g.gambling_detected then
      match dictGetD result "rationale" (PyVal.str "") with
      | PyVal.str r =>
        let thresh_decline := (3 ≤ g_count) || (150 ≤ g_max)
        let add := gamblingSuffix g_count g_total g_max
        let result := dictSet result "rationale" (.str (pyStrip (pyRStrip r ++ add)))
        let result :=
          if thresh_decline then
            dictSet (dictSet result "decision" (.str "Declined"))
              "approved_amount" PyVal.none
          else result
        let result := dictSetDefault result "decision" (.str "Error")
        let result := dictSetDefault result "approved_amount" PyVal.none
        dictSetDefault result "rationale" (.str "No rationale returned.")
      | _ =>
        -- `.rstrip()` on a non-string raises AttributeError, which the
        -- surrounding `except Exception` converts to the error sentinel
        errDict "AttributeError: rstrip"
    else
      let result := dictSetDefault result "decision" (.str "Error")
      let result := dictSetDefault result "approved_amount" PyVal.none
      dictSetDefault result "rationale" (.str "No rationale returned.")

end LoanAnalyzer

/-! ## Well-formedness of report amount fields (for claim C1) -/

namespace ReportFeatures

/-- An amount field `float()` accepts: missing, `null`, numeric, or a
string that is empty (after stripping and comma removal) or a valid
float literal. -/
def wellFormedFloat (v : FloatVal) : Bool :=
  match v with
  | .str s =>
    let t := pyDelete "," (pyStrip s)
    t == "" || (pyParseFloat t).isSome
  | _ => true

def wellFormedTxn (t : RTxn) : Bool :=
  wellFormedFloat t.credit && wellFormedFloat t.debit && wellFormedFloat t.balance

/-- Every amount field of every transaction is a parseable number (or
missing).  Nothing else is constrained: accounts, dates, names and
categories may be absent or arbitrary. -/
def wellFormedReport (r : RReport) : Bool :=
  (r.accounts.getD []).all fun a => (a.transactions.getD []).all wellFormedTxn

theorem to_float_ok_of_wf (v : FloatVal) (h : wellFormedFloat v = true) :
    ∃ q, _to_float v = .ok q := by
  cases v with
  | absent => exact ⟨0, rfl⟩
  | null => exact ⟨0, rfl⟩
  | num q => exact ⟨q, rfl⟩
  | str s =>
    simp only [wellFormedFloat] at h
    unfold _to_float
    rcases Bool.or_eq_true_iff.mp h with h1 | h1
    · simp [h1]
    · cases hp : pyParseFloat (pyDelete "," (pyStrip s)) with
      | none => rw [hp] at h1; simp at h1
      | some q => simp [hp]; split <;> simp

theorem txnsOfList_ok (start_dt end_dt : Int) (ts : List RTxn)
    (h : ts.all wellFormedTxn = true) :
    ∃ l, txnsOfList start_dt end_dt ts = .ok l := by
  induction ts with
  | nil => exact ⟨[], rfl⟩
  | cons t rest ih =>
    simp only [List.all_cons, Bool.and_eq_true] at h
    obtain ⟨ht, hrest⟩ := h
    obtain ⟨l, hl⟩ := ih hrest
    simp only [wellFormedTxn, Bool.and_eq_true] at ht
    obtain ⟨⟨hc, hd⟩, hb⟩ := ht
    obtain ⟨qc, hqc⟩ := to_float_ok_of_wf _ hc
    obtain ⟨qd, hqd⟩ := to_float_ok_of_wf _ hd
    obtain ⟨qb, hqb⟩ := to_float_ok_of_wf _ hb
    unfold txnsOfList
    cases hdt : parse_dt (t.date.getD "") with
    | none => exact ⟨l, hl⟩
    | some dt =>
      simp only [bind, Except.bind, hqc, hqd, hqb, hl]
      split
      · exact ⟨l, rfl⟩
      · exact ⟨_, rfl⟩

theorem txnsOfAccounts_ok (start_dt end_dt : Int) (accs : List RAccount)
    (h : accs.all (fun a => (a.transactions.getD []).all wellFormedTxn) = true) :
    ∃ l, txnsOfAccounts start_dt end_dt accs = .ok l := by
  induction accs with
  | nil => exact ⟨[], rfl⟩
  | cons a rest ih =>
    simp only [List.all_cons, Bool.and_eq_true] at h
    obtain ⟨l1, hl1⟩ := txnsOfList_ok start_dt end_dt _ h.1
    obtain ⟨l2, hl2⟩ := ih h.2
    unfold txnsOfAccounts
    simp only [bind, Except.bind, hl1, hl2]
    exact ⟨_, rfl⟩

end ReportFeatures

open ReportFeatures in
/-- C1 counterexample report: one in-window transaction whose `credit`
field is the non-numeric string `"abc"`. -/
def c1Report : RReport :=
  { complete_datetime := some "2024-01-15"
    accounts := some [
      { transactions := some [
          { date := some "2024-01-10", credit := FloatVal.str "abc" } ] } ] }

/-- C1 (counterexample): `extract_features_from_json` is NOT total on
malformed input: on a report whose in-window transaction carries the
non-numeric amount string `"abc"`, `float("abc")` raises `ValueError`
and the extraction fails instead of substituting the zero default. -/
theorem c1_extract_raises_on_nonnumeric_amount :
    ReportFeatures.extract_features_from_json c1Report 30 0 =
      .error "could not convert string to float: abc" := by
  rfl

open ReportFeatures in
/-- C1 (amended): extraction never fails on reports all of whose
present amount strings are numeric; missing fields, absent accounts and
unparseable transaction dates still yield the defaults.  (A present
non-numeric amount string is the one malformed input that raises, as
the counterexample shows.) -/
theorem c1_extract_total_on_wellformed_amounts
    (r : RReport) (w now : Int) (h : wellFormedReport r = true) :
    ∃ fs, extract_features_from_json r w now = .ok fs := by
  unfold extract_features_from_json
  obtain ⟨l, hl⟩ :=
    txnsOfAccounts_ok
      ((match parse_dt (r.complete_datetime.getD "") with
        | some d => d
        | Option.none => now) - 86400 * w)
      (match parse_dt (r.complete_datetime.getD "") with
        | some d => d
        | Option.none => now)
      (r.accounts.getD []) h
  simp only [bind, Except.bind, hl]
  exact ⟨_, rfl⟩

open ReportFeatures in
/-- C1 witness: a report with no accounts at all is well-formed and
extracts successfully. -/
theorem c1_witness :
    wellFormedReport { complete_datetime := some "2024-01-15" } = true ∧
    ∃ fs, extract_features_from_json { complete_datetime := some "2024-01-15" } 30 0 =
      .ok fs :=
  ⟨by decide, c1_extract_total_on_wellformed_amounts _ 30 0 (by decide)⟩

/-! ## Claim C2: determinism of extraction -/

open ReportFeatures in
/-- C2 counterexample report: no `complete_datetime`, so the window end
falls back to `datetime.utcnow()`. -/
def c2Report : RReport :=
  { accounts := some [
      { transactions := some [
          { date := some "2024-01-10", details := some "nsf",
            debit := FloatVal.str "20" } ] } ] }

/-- Projection picking the NSF count out of an extraction result. -/
def nsfProj : Except String (List (String × PyVal)) → Option PyVal
  | .ok l => dictGet l "nsf_count_30d"
  | .error _ => Option.none

/-- C2 (counterexample): extraction is NOT a function of the report and
window alone — when `complete_datetime` is absent the window end is the
wall clock, and the same report and window give different feature
vectors at two call times (here the NSF count flips from 1 to 0). -/
theorem c2_extract_depends_on_clock :
    ReportFeatures.extract_features_from_json c2Report 30 1705276800 ≠
      ReportFeatures.extract_features_from_json c2Report 30 1717200000 := by
  intro h
  have h1 : nsfProj (ReportFeatures.extract_features_from_json c2Report 30 1705276800) =
      some (PyVal.int 1) := rfl
  have h2 : nsfProj (ReportFeatures.extract_features_from_json c2Report 30 1717200000) =
      some (PyVal.int 0) := rfl
  rw [congrArg nsfProj h, h2] at h1
  simp at h1

open ReportFeatures in
/-- C2 (amended): whenever the report's `complete_datetime` parses, the
window end comes from the report and extraction is independent of the
call time — two calls at any two times give identical feature vectors.
With an absent or unparseable `complete_datetime` the result may depend
on the clock (see the counterexample). -/
theorem c2_extract_deterministic_with_complete_datetime
    (r : RReport) (w : Int) (n1 n2 : Int) (d : Int)
    (h : parse_dt (r.complete_datetime.getD "") = some d) :
    extract_features_from_json r w n1 = extract_features_from_json r w n2 := by
  unfold extract_features_from_json
  rw [h]

open ReportFeatures in
/-- C2 witness: a dated report extracts identically at two distinct
call times. -/
theorem c2_witness :
    parse_dt ((c1Report.complete_datetime).getD "") = some 1705276800 ∧
    extract_features_from_json c1Report 30 0 =
      extract_features_from_json c1Report 30 999999999 :=
  ⟨by decide,
   c2_extract_deterministic_with_complete_datetime c1Report 30 0 999999999
     1705276800 (by decide)⟩

/-! ## Claim C3: decision-ledger dedup -/

/-- A sample decision record with a concrete `(guid, timestamp)` key. -/
def c3Entry : DecisionEntry :=
  { guid := some "G-1", timestamp := some "2024-01-01 10:00:00" }

/-- C3 (counterexample): the ledger is NOT protected against duplicate
`(guid, timestamp)` keys on every append path — the webhook's decision
save (`payday_webhook` lines 310–337) is a plain `append` with no dedup
check, so appending a record whose key already occurs changes the
ledger and leaves two records with the same key. -/
theorem c3_webhook_append_not_deduped :
    dkey c3Entry ∈ (webhookReadLedger (.valid [c3Entry])).map dkey ∧
    webhook_save_decision c3Entry (.valid [c3Entry]) ≠ .valid [c3Entry] ∧
    ((webhookReadLedger (webhook_save_decision c3Entry (.valid [c3Entry]))).countP
        (fun d => dkey d == dkey c3Entry)) = 2 := by
  refine ⟨by decide, ?_, rfl⟩
  intro h
  rw [webhook_save_decision] at h
  simp [webhookReadLedger] at h

theorem append_unique_keysNodup (e : DecisionEntry) (l : List DecisionEntry)
    (h : (l.map dkey).Nodup) :
    ((append_unique_decision e l).1.map dkey).Nodup := by
  unfold append_unique_decision
  split
  · exact h
  · next hc =>
    simp only [List.map_append, List.map_cons, List.map_nil]
    rw [List.nodup_append]
    refine ⟨h, List.nodup_singleton _, ?_⟩
    intro a ha hb
    rw [List.mem_singleton] at hb
    subst hb
    exact hc (List.elem_eq_true_of_mem ha)

theorem foldl_append_unique_keysNodup (es : List DecisionEntry)
    (l : List DecisionEntry) (h : (l.map dkey).Nodup) :
    ((es.foldl (fun acc e => (append_unique_decision e acc).1) l).map dkey).Nodup := by
  induction es generalizing l with
  | nil => exact h
  | cons e rest ih =>
    exact ih _ (append_unique_keysNodup e l h)

/-- C3 (amended): the dedup invariant holds for the drain path's
`append_unique_decision` — an append whose `(guid, timestamp)` key
already occurs leaves the ledger unchanged (returning `false`), and any
sequence of such appends starting from the empty ledger keeps the keys
duplicate-free; the webhook's own save path appends without this check
(see the counterexample). -/
theorem c3_append_unique_deduped :
    (∀ (e : DecisionEntry) (l : List DecisionEntry),
        ((l.map dkey).contains (dkey e)) = true →
        append_unique_decision e l = (l, false)) ∧
    (∀ es : List DecisionEntry,
        ((es.foldl (fun acc e => (append_unique_decision e acc).1) []).map dkey).Nodup) := by
  constructor
  · intro e l h
    unfold append_unique_decision
    rw [h]
    simp
  · intro es
    exact foldl_append_unique_keysNodup es [] (by simp)

/-- C3 witness: a duplicate-key append through `append_unique_decision`
is a no-op on a concrete ledger. -/
theorem c3_witness :
    append_unique_decision c3Entry [c3Entry] = ([c3Entry], false) :=
  c3_append_unique_deduped.1 c3Entry [c3Entry] (by decide)

/-! ## Claim C4: pending-queue upsert idempotence -/

/-- Two pre-existing queue entries sharing one key (a degenerate but
admissible starting queue). -/
def c4qa : QEntry :=
  { first_name := "Jane", last_name := "Doe", loan_type := "payday",
    loan_amount := "100", timestamp := some "2024-01-01 00:00:00" }

def c4qb : QEntry :=
  { first_name := "JANE", last_name := "doe", loan_type := "Payday",
    loan_amount := "150", timestamp := some "2024-01-01 00:01:00" }

def c4i1 : QItem :=
  { first_name := some "jane", last_name := some "Doe", loan_type := some "payday",
    loan_amount := some "300", timestamp := some "2024-01-02 00:00:00" }

def c4i2 : QItem :=
  { first_name := some "JANE", last_name := some "DOE", loan_type := some "payday",
    loan_amount := some "400", timestamp := some "2024-01-03 00:00:00" }

/-- C4 (counterexample): quantified over EVERY starting queue the claim
fails — if the starting queue already carries two entries with the
upserted key, the upsert only rewrites the first match, and after two
upserts the queue still holds two entries for that key, not exactly
one. -/
theorem c4_upsert_keeps_preexisting_duplicates :
    qkey (normalizeItem c4i1) = qkey (normalizeItem c4i2) ∧
    (normalizeItem c4i1).loan_amount ≠ (normalizeItem c4i2).loan_amount ∧
    ((readQueueTolerant
        (add_to_pending_queue c4i2
          (add_to_pending_queue c4i1 (.valid [c4qa, c4qb])))).countP
        (fun e => qkey e == qkey (normalizeItem c4i2))) = 2 := by
  refine ⟨by decide, by decide, by decide⟩

theorem upsert_filter_eq (n : QEntry) (q : List QEntry)
    (h : q.countP (fun e => qkey e == qkey n) ≤ 1) :
    (upsertEntry n q).filter (fun e => qkey e == qkey n) = [n] := by
  induction q with
  | nil => simp [upsertEntry]
  | cons e rest ih =>
    rw [List.countP_cons] at h
    unfold upsertEntry
    split
    · next he =>
      simp only [List.filter_cons]
      rw [if_pos (by simp)]
      have hz : rest.countP (fun e => qkey e == qkey n) = 0 := by
        simp only [he, if_pos] at h
        omega
      have : rest.filter (fun e => qkey e == qkey n) = [] := by
        rw [List.filter_eq_nil_iff]
        intro a ha
        have := List.countP_eq_zero.mp hz a ha
        simpa using this
      rw [this]
    · next he =>
      simp only [List.filter_cons]
      rw [if_neg (by simpa using he)]
      apply ih
      simp only [he, if_neg] at h
      simpa using h

/-- C4 (amended): on any starting queue holding at most one entry for
the key, upserting two applicants with the same case-insensitive
`(first_name, last_name, loan_type)` key leaves exactly one entry for
that key, and that entry is the later item in full — its amount and its
timestamp. -/
theorem c4_upsert_last_write_wins (q : List QEntry) (i1 i2 : QItem)
    (hk : qkey (normalizeItem i1) = qkey (normalizeItem i2))
    (hq : q.countP (fun e => qkey e == qkey (normalizeItem i2)) ≤ 1) :
    (upsertEntry (normalizeItem i2) (upsertEntry (normalizeItem i1) q)).filter
        (fun e => qkey e == qkey (normalizeItem i2)) = [normalizeItem i2] := by
  have hpred : (fun e => qkey e == qkey (normalizeItem i2)) =
      (fun e => qkey e == qkey (normalizeItem i1)) := by
    funext e
    rw [hk]
  have h1 : (upsertEntry (normalizeItem i1) q).filter
      (fun e => qkey e == qkey (normalizeItem i1)) = [normalizeItem i1] := by
    apply upsert_filter_eq
    rw [← hpred]
    exact hq
  apply upsert_filter_eq
  rw [List.countP_eq_length_filter, hpred, h1]
  simp

/-- C4 witness: two concrete upserts into the empty queue leave exactly
the later entry. -/
theorem c4_witness :
    (upsertEntry (normalizeItem c4i2) (upsertEntry (normalizeItem c4i1) [])).filter
        (fun e => qkey e == qkey (normalizeItem c4i2)) = [normalizeItem c4i2] :=
  c4_upsert_last_write_wins [] c4i1 c4i2 (by decide) (by decide)

/-! ## Claim C5: correlation lookup -/

/-- Refinement definition following the spec's words: the id of the
MOST RECENT parseable log entry whose name contains both fragments and
whose status is `"verified"` (the log is appended chronologically, so
the most recent matching entry is the last one). -/
def findGuidSpecLatest (fn ln : String) (log : List NotifLine) : Option String :=
  (((log.filterMap id).filter (notifMatches (pyLower fn) (pyLower ln))).getLast?).bind
    NEntry.guid

/-- A log holding two parseable verified entries for the same name with
different correlation ids. -/
def c5log : List NotifLine :=
  [some { name := some "Jane Doe", status := some "verified", guid := some "G1" },
   Option.none,
   some { name := some "Jane M. Doe", status := some "verified", guid := some "G2" }]

/-- C5 (counterexample): the lookup returns the FIRST matching entry in
scan order, not the most recent one — on a log with two verified
matches it returns the older id `G1` while the most recent matching
entry carries `G2`. -/
theorem c5_lookup_returns_first_not_most_recent :
    find_guid_in_notifications "Jane" "Doe" c5log = some "G1" ∧
    findGuidSpecLatest "Jane" "Doe" c5log = some "G2" ∧
    find_guid_in_notifications "Jane" "Doe" c5log ≠
      findGuidSpecLatest "Jane" "Doe" c5log := by
  refine ⟨rfl, rfl, by decide⟩

theorem findGuidScan_eq_find? (fn ln : String) (log : List NotifLine) :
    findGuidScan fn ln log =
      ((log.filterMap id).find? (notifMatches fn ln)).bind NEntry.guid := by
  induction log with
  | nil => rfl
  | cons line rest ih =>
    cases line with
    | none => simpa [findGuidScan] using ih
    | some e =>
      simp only [findGuidScan, List.filterMap_cons_some, List.find?, id]
      split
      · next h => simp [h]
      · next h =>
        rw [Bool.not_eq_true] at h
        simp [h, ih]

/-- C5 (amended): for every name pair the lookup returns the guid of
the EARLIEST (first in scan order) parseable entry whose lower-cased
name contains both lower-cased fragments and whose status is
`"verified"`; unparseable lines are skipped without failing, and the
result is nothing when no such entry exists (or when the matching entry
has no guid). -/
theorem c5_lookup_earliest_match (first_name last_name : String)
    (log : List NotifLine) :
    find_guid_in_notifications first_name last_name log =
      ((log.filterMap id).find?
          (notifMatches (pyLower first_name) (pyLower last_name))).bind
        NEntry.guid :=
  findGuidScan_eq_find? (pyLower first_name) (pyLower last_name) log

/-! ## Claim C6: invalid pending-queue file -/

/-- C6 (confirmed): when the pending-queue file holds content
`json.load` rejects, the drain treats the queue as empty — it returns
normally after only the read, and the whole durable state (in
particular the invalid file's contents) is left exactly as it was. -/
theorem c6_invalid_queue_drains_as_empty (raw : String) (log : List NotifLine)
    (ledger : LedgerFile) (lk : Option Nat) :
    process_pending
        { queueFile := .invalid raw, notifLog := log, ledgerFile := ledger,
          queueLockHeldUntil := lk } =
      ({ queueFile := .invalid raw, notifLog := log, ledgerFile := ledger,
         queueLockHeldUntil := lk },
       [Event.queueRead], .ok ()) :=
  rfl

/-! ## Claim C7: lock timeout and the drain's queue access -/

theorem fileLockGo_none_timedOut (start timeout : Nat) :
    ∀ (fuel elapsed : Nat),
      fileLockGo Option.none start timeout fuel elapsed = .timedOut := by
  intro fuel
  induction fuel with
  | zero => intro elapsed; rfl
  | succ f ih =>
    intro elapsed
    unfold fileLockGo
    simp only [lockFreeAt, Bool.false_eq_true, if_false]
    split
    · rfl
    · exact ih (elapsed + 1)

/-- The bounded-wait helper: a lock held forever (longer than any
timeout) makes acquisition end in the explicit `TimeoutError`. -/
theorem file_lock_none_timeout (start timeout : Nat) :
    file_lock_acquire Option.none start timeout = .timedOut :=
  fileLockGo_none_timedOut start timeout (timeout + 2) 0

def isLockAcquire : Event → Bool
  | .lockAcquire _ => true
  | _ => false

theorem drain_fold_no_lock_events (log : List NotifLine) (queue : List QEntry) :
    ∀ acc : List QEntry × List Event,
      acc.2.all (fun ev => !isLockAcquire ev) = true →
      ((queue.foldl (drainStep log) acc).2).all (fun ev => !isLockAcquire ev) = true := by
  induction queue with
  | nil => intro acc h; exact h
  | cons a rest ih =>
    intro acc h
    rw [List.foldl_cons]
    apply ih
    unfold drainStep
    dsimp only
    split
    · simp only [List.all_append, h, Bool.true_and]
      rfl
    · split
      · simp only [List.all_append, h, Bool.true_and]
        rfl
      · simp only [List.all_append, h, Bool.true_and]
        rfl

/-- C7 (amended): the `file_lock` helper does poll with a bounded wait
and raises the explicit `TimeoutError` when the lock stays held past
the timeout — and the ledger append, the code's only lock user, fails
loudly in that case — but the drain's read-modify-write of the pending
queue acquires NO lock at all: no execution of `process_pending`
performs any lock acquisition. -/
theorem c7_lock_timeout_and_unlocked_drain :
    (∀ start timeout : Nat,
        file_lock_acquire Option.none start timeout = .timedOut) ∧
    (∀ (start timeout : Nat) (entry : DecisionEntry) (data : List DecisionEntry),
        append_unique_decision_locked Option.none start timeout entry data =
          .error "TimeoutError: Could not acquire lock") ∧
    (∀ st : PendingState,
        ((process_pending st).2.1).all (fun ev => !isLockAcquire ev) = true) := by
  refine ⟨file_lock_none_timeout, ?_, ?_⟩
  · intro start timeout entry data
    unfold append_unique_decision_locked
    rw [file_lock_none_timeout]
  · intro st
    unfold process_pending
    cases st.queueFile with
    | missing =>
      dsimp only
      split
      · rfl
      · next h => simp at h
    | invalid raw =>
      dsimp only
      split
      · rfl
      · next h => simp at h
    | valid q =>
      dsimp only
      split
      · rfl
      · have hall := drain_fold_no_lock_events st.notifLog q ([], []) (by decide)
        rcases hf : q.foldl (drainStep st.notifLog) ([], []) with ⟨nq, evs⟩
        rw [hf] at hall
        simp only [List.all_cons, List.all_append, hall]
        simp [isLockAcquire]

/-- A queued applicant with a verified correlation entry on file. -/
def c7App : QEntry :=
  { first_name := "Jane", last_name := "Doe", loan_type := "payday",
    loan_amount := "500", timestamp := some "2024-01-01 00:00:00" }

/-- A drain state in which `pending_queue.json.lock` is held by another
party forever — longer than any configured timeout. -/
def c7State : PendingState :=
  { queueFile := .valid [c7App]
    notifLog := [some { name := some "Jane Doe", status := some "verified",
                        guid := some "G-1" }]
    ledgerFile := .valid []
    queueLockHeldUntil := Option.none }

/-- C7 (counterexample): with the pending-queue lock held externally
past any timeout (an acquisition attempt on it would time out, first
conjunct), a drain attempt does NOT fail with a timeout error: it runs
to completion, reading and writing the queue without acquiring any
lock. -/
theorem c7_drain_succeeds_despite_held_queue_lock :
    (∀ start timeout : Nat,
        file_lock_acquire c7State.queueLockHeldUntil start timeout = .timedOut) ∧
    process_pending c7State =
      (c7State,
       [.queueRead, .logLookup, .fetchReport "G-1", .queueWrite], .ok ()) :=
  ⟨fun start timeout => file_lock_none_timeout start timeout, rfl⟩

/-! ## Claim C8: government-benefit signals -/

/-- The fixed key set of the dictionary `extract_features_from_json`
returns. -/
def featureKeys : List String :=
  ["window_days", "payroll_detected", "etransfer_in_count_30d",
   "etransfer_out_count_30d", "nsf_count_30d", "overdraft_hits_30d",
   "gambling_detected", "gambling_txn_count_30d", "gambling_total_amount_30d",
   "gambling_max_single_amount", "under_bankruptcy_or_consumer_proposal",
   "trustee_payments_count", "trustee_failed_count", "new_loans_received_count",
   "loan_deductions_count", "distinct_lenders_count", "existing_loans_count",
   "total_inflow_30d", "total_outflow_30d", "examples"]

open ReportFeatures in
/-- C8 (counterexample): the extracted feature vector carries NO
government-benefit signal at all — on a concrete report the key set is
exactly `featureKeys`, which contains no key mentioning "government"
and no `primary_income_is_government` flag, so neither the claimed
signals nor the ≥70% flag exist. -/
theorem c8_no_government_signals :
    ∃ fs, extract_features_from_json { accounts := some [] } 30 0 = .ok fs ∧
      fs.map Prod.fst = featureKeys ∧
      featureKeys.all (fun k => !(pyIn "government" (pyLower k))) = true ∧
      featureKeys.all (fun k => !(k == "primary_income_is_government")) = true := by
  exact ⟨_, rfl, rfl, by decide, by decide⟩

open ReportFeatures in
/-- C8 (amended): for every report, window and call time, a successful
extraction returns a dictionary with exactly the fixed key set
`featureKeys` — income signals are limited to `payroll_detected`; no
government-benefit count/total and no primary-income-is-government flag
is computed (the ≥70% rule is unimplemented). -/
theorem c8_feature_keys_fixed (r : RReport) (w now : Int)
    (fs : List (String × PyVal))
    (h : extract_features_from_json r w now = .ok fs) :
    fs.map Prod.fst = featureKeys ∧
    fs.all (fun kv => !(pyIn "government" (pyLower kv.1))) = true := by
  unfold extract_features_from_json at h
  simp only [bind, Except.bind] at h
  cases hE : ReportFeatures.txnsOfAccounts
      ((match parse_dt (r.complete_datetime.getD "") with
        | some d => d
        | Option.none => now) - 86400 * w)
      (match parse_dt (r.complete_datetime.getD "") with
        | some d => d
        | Option.none => now)
      (r.accounts.getD []) with
  | error e =>
    rw [hE] at h
    simp at h
  | ok txns =>
    rw [hE] at h
    simp only [Except.ok.injEq] at h
    subst h
    exact ⟨rfl, rfl⟩

open ReportFeatures in
/-- C8 witness: a concrete successful extraction with the fixed keys. -/
theorem c8_witness :
    extract_features_from_json { accounts := some [] } 30 0 =
      .ok ((ReportFeatures.extract_features_from_json { accounts := some [] } 30 0).toOption.getD []) ∧
    (((ReportFeatures.extract_features_from_json { accounts := some [] } 30 0).toOption.getD []).map
        Prod.fst = featureKeys) :=
  ⟨rfl, (c8_feature_keys_fixed { accounts := some [] } 30 0 _ rfl).1⟩

/-! ## Claim C9: province gating of the payday webhook -/

/-- The Ontario/Alberta variant tokens of the province table. -/
def allowedVariants : List String := ["ontario", "on", "alberta", "ab"]

theorem provinceAllowed_false_of_no_marker (address : String)
    (h : (allowedVariants.all
        (fun v => !province_variant_match v address)) = true) :
    provinceAllowed (detect_province address) = false := by
  simp only [allowedVariants, List.all_cons, List.all_nil, Bool.and_eq_true,
    Bool.not_eq_true', and_true] at h
  obtain ⟨h1, h2, h3, h4⟩ := h
  unfold detect_province all_known_provinces
  simp only [detectProvinceIn, List.any_cons, List.any_nil, h1, h2, h3, h4,
    Bool.or_self, Bool.or_false, Bool.false_or, Bool.false_eq_true, if_false]
  split
  · rfl
  split
  · rfl
  split
  · rfl
  split
  · rfl
  split
  · rfl
  split
  · rfl
  split
  · rfl
  split
  · rfl
  rfl

/-- The skipped-file entry the rejection path writes. -/
def expectedSkipEntry (form : WebForm) (now : String) : SkippedEntry :=
  { first_name := pyStrip (form.first_name.getD "")
    last_name := pyStrip (form.last_name.getD "")
    address := pyLower (pyStrip (form.address.getD ""))
    detected_province :=
      (detect_province (pyLower (pyStrip (form.address.getD "")))).getD "unknown"
    loan_type := form.loan_type.getD "payday"
    loan_amount := form.loan_amount.getD ""
    timestamp := now }

/-- C9 (confirmed): a payday submission whose (stripped, lower-cased)
address contains no Ontario/Alberta marker under the webhook's
space/comma-delimited token patterns is answered 403 and appended to
the skipped-applicants file, with an empty event trace — no correlation
lookup, report fetch, decision call, queue write or ledger append — and
with the queue, log and ledger fields of the state untouched. -/
theorem c9_unsupported_province_rejected (form : WebForm) (st : WebState)
    (now : String) (analyzeO : String → Except String (List (String × PyVal)))
    (h : (allowedVariants.all
        (fun v => !province_variant_match v
          (pyLower (pyStrip (form.address.getD ""))))) = true) :
    payday_webhook form st now analyzeO =
      (403,
       { st with skippedFile := SkippedFile.valid (readSkippedTolerant st.skippedFile ++ [expectedSkipEntry form now]) },
       []) := by
  have hA := provinceAllowed_false_of_no_marker _ h
  unfold payday_webhook
  simp only [hA]
  rfl

/-- A form with a Quebec address. -/
def c9form : WebForm :=
  { first_name := some "Jane", last_name := some "Doe",
    loan_type := some "payday", loan_amount := some "500",
    address := some "123 Main St Montreal, Quebec H1A 1A1" }

def c9state : WebState :=
  { notifLog := [some { name := some "Jane Doe", status := some "verified",
                        guid := some "G-9" }]
    queueFile := .valid []
    skippedFile := .valid []
    ledgerFile := .valid [] }

/-- C9 witness: the concrete Quebec submission is rejected with 403,
logged to the skipped file, and triggers no other effect — even though
a verified correlation entry for the applicant is on file. -/
theorem c9_witness :
    (allowedVariants.all
        (fun v => !province_variant_match v
          (pyLower (pyStrip (c9form.address.getD ""))))) = true ∧
    payday_webhook c9form c9state "2024-05-01 00:00:00" (fun _ => .error "unused") =
      (403,
       { c9state with skippedFile := SkippedFile.valid (readSkippedTolerant c9state.skippedFile ++ [expectedSkipEntry c9form "2024-05-01 00:00:00"]) },
       []) :=
  ⟨by decide,
   c9_unsupported_province_rejected c9form c9state "2024-05-01 00:00:00"
     (fun _ => .error "unused") (by decide)⟩

/-! ## Dictionary update lemmas (for claim C10) -/

theorem dictGet_append (xs ys : List (String × PyVal)) (k : String) :
    dictGet (xs ++ ys) k =
      match dictGet ys k with
      | some w => some w
      | Option.none => dictGet xs k := by
  induction xs with
  | nil =>
    simp only [List.nil_append]
    cases dictGet ys k <;> rfl
  | cons x rest ih =>
    simp only [List.cons_append, dictGet, List.append_eq, ih]
    cases dictGet ys k with
    | some w => rfl
    | none =>
      cases dictGet rest k <;> rfl

theorem dictGet_map_upd (xs : List (String × PyVal)) (k : String) (v : PyVal) :
    dictGet (xs.map (fun kv => if kv.1 == k then (kv.1, v) else kv)) k =
      (dictGet xs k).map (fun _ => v) := by
  induction xs with
  | nil => rfl
  | cons x rest ih =>
    by_cases hx : (x.1 == k) = true
    · simp only [List.map_cons, if_pos hx]
      simp only [dictGet, ih]
      cases hr : dictGet rest k with
      | some w => rfl
      | none => simp [hx]
    · simp only [List.map_cons, if_neg hx]
      simp only [dictGet, ih]
      cases hr : dictGet rest k with
      | some w => rfl
      | none =>
        rw [Bool.not_eq_true] at hx
        simp [hx]

theorem dictGet_map_upd_ne (xs : List (String × PyVal)) (k k2 : String) (v : PyVal)
    (h : (k2 == k) = false) :
    dictGet (xs.map (fun kv => if kv.1 == k then (kv.1, v) else kv)) k2 =
      dictGet xs k2 := by
  induction xs with
  | nil => rfl
  | cons x rest ih =>
    by_cases hx : (x.1 == k) = true
    · have hx1 : x.1 = k := by simpa using hx
      have hne : (x.1 == k2) = false := by
        simp only [beq_eq_false_iff_ne] at h ⊢
        rw [hx1]
        exact fun hc => h hc.symm
      simp only [List.map_cons, if_pos hx]
      simp only [dictGet, ih]
      cases dictGet rest k2 with
      | some w => rfl
      | none => simp [hne]
    · simp only [List.map_cons, if_neg hx]
      simp only [dictGet, ih]

theorem dictGet_dictSet_self (xs : List (String × PyVal)) (k : String) (v : PyVal) :
    dictGet (dictSet xs k v) k = some v := by
  unfold dictSet
  split
  · next hhas =>
    rw [dictGet_map_upd]
    unfold dictHas at hhas
    cases hg : dictGet xs k with
    | some w => rfl
    | none => rw [hg] at hhas; simp at hhas
  · rw [dictGet_append]
    simp [dictGet]

theorem dictGet_dictSet_ne (xs : List (String × PyVal)) (k k2 : String) (v : PyVal)
    (h : (k2 == k) = false) :
    dictGet (dictSet xs k v) k2 = dictGet xs k2 := by
  unfold dictSet
  split
  · exact dictGet_map_upd_ne xs k k2 v h
  · rw [dictGet_append]
    have hk : (k == k2) = false := by
      simp only [beq_eq_false_iff_ne] at h ⊢
      exact fun hc => h hc.symm
    simp [dictGet, hk]

theorem dictHas_dictSet_self (xs : List (String × PyVal)) (k : String) (v : PyVal) :
    dictHas (dictSet xs k v) k = true := by
  unfold dictHas
  rw [dictGet_dictSet_self]
  rfl

theorem dictHas_dictSet_ne (xs : List (String × PyVal)) (k k2 : String) (v : PyVal)
    (h : (k2 == k) = false) :
    dictHas (dictSet xs k v) k2 = dictHas xs k2 := by
  unfold dictHas
  rw [dictGet_dictSet_ne xs k k2 v h]

theorem dictSetDefault_of_has (xs : List (String × PyVal)) (k : String) (v : PyVal)
    (h : dictHas xs k = true) :
    dictSetDefault xs k v = xs := by
  unfold dictSetDefault
  simp [h]

/-! ## Claim C10: the gambling guardrail -/

/-- Three gambling lines, and a model response whose `rationale` is the
JSON number 5 rather than a string. -/
def c10Text : String := "casino a\ncasino b\ncasino c"

def c10Resp : String :=
  "\x7b\"decision\": \"Approved\", \"approved_amount\": 500, \"rationale\": 5\x7d"

/-- C10 (counterexample): the guardrail does NOT force a decline for
every model response once the pre-scan thresholds are met — the report
has three gambling transactions (count ≥ 3, detected), yet for a model
response whose `rationale` field is a number, `.rstrip()` raises
`AttributeError` inside the guarded block and the function returns the
`"Error"` sentinel, not `"Declined"`. -/
theorem c10_guardrail_bypassed_by_nonstring_rationale :
    (LoanAnalyzer.extract_gambling_stats c10Text).gambling_detected = true ∧
    3 ≤ (LoanAnalyzer.extract_gambling_stats c10Text).gambling_txn_count_30d ∧
    dictGet (LoanAnalyzer.analyze_bank_statement c10Text "500" (.ok c10Resp))
        "decision" = some (PyVal.str "Error") ∧
    some (PyVal.str "Error") ≠ some (PyVal.str "Declined") := by
  refine ⟨rfl, by decide, rfl, by simp⟩

/-- C10 (amended): whenever the pre-scan detects gambling with a count
of at least 3 or a maximum single amount of at least 150, AND the model
call returns content whose defensively-parsed `rationale` is a string
(or absent, defaulting to `""`), the returned decision is `"Declined"`
with a null approved amount and the gambling counts appended to the
rationale.  A response carrying a non-string rationale (or a failed
model call) instead produces the `"Error"` sentinel, as the
counterexample shows. -/
theorem c10_guardrail_declines (report_text loan_amount content : String) (r : String)
    (hd : (LoanAnalyzer.extract_gambling_stats report_text).gambling_detected = true)
    (ht : 3 ≤ (LoanAnalyzer.extract_gambling_stats report_text).gambling_txn_count_30d ∨
          150 ≤ (LoanAnalyzer.extract_gambling_stats report_text).gambling_max_single_amount)
    (hr : dictGetD (LoanAnalyzer.safe_parse_json (some (pyStrip content)))
        "rationale" (PyVal.str "") = PyVal.str r) :
    dictGet (LoanAnalyzer.analyze_bank_statement report_text loan_amount (.ok content))
        "decision" = some (PyVal.str "Declined") ∧
    dictGet (LoanAnalyzer.analyze_bank_statement report_text loan_amount (.ok content))
        "approved_amount" = some PyVal.none ∧
    dictGet (LoanAnalyzer.analyze_bank_statement report_text loan_amount (.ok content))
        "rationale" =
      some (PyVal.str (pyStrip (pyRStrip r ++
        LoanAnalyzer.gamblingSuffix
          (LoanAnalyzer.extract_gambling_stats report_text).gambling_txn_count_30d
          (LoanAnalyzer.extract_gambling_stats report_text).gambling_total_amount_30d
          (LoanAnalyzer.extract_gambling_stats report_text).gambling_max_single_amount))) := by
  have hb : ((3 ≤ (LoanAnalyzer.extract_gambling_stats report_text).gambling_txn_count_30d : Bool) ||
      (150 ≤ (LoanAnalyzer.extract_gambling_stats report_text).gambling_max_single_amount : Bool)) = true := by
    rcases ht with h | h <;> simp [h]
  unfold LoanAnalyzer.analyze_bank_statement
  simp only [hd, hr, if_true, hb]
  have h1 : ("decision" == "rationale") = false := by decide
  have h2 : ("approved_amount" == "rationale") = false := by decide
  have h3 : ("approved_amount" == "decision") = false := by decide
  have h4 : ("decision" == "approved_amount") = false := by decide
  have h5 : ("rationale" == "decision") = false := by decide
  have h6 : ("rationale" == "approved_amount") = false := by decide
  have hhasD : ∀ xs v1 v2,
      dictHas (dictSet (dictSet xs "decision" v1) "approved_amount" v2) "decision" = true := by
    intro xs v1 v2
    rw [dictHas_dictSet_ne _ _ _ _ h4, dictHas_dictSet_self]
  have hhasA : ∀ xs v1 v2,
      dictHas (dictSet (dictSet xs "decision" v1) "approved_amount" v2)
        "approved_amount" = true := by
    intro xs v1 v2
    exact dictHas_dictSet_self _ _ _
  have hhasR : ∀ xs v0 v1 v2,
      dictHas (dictSet (dictSet (dictSet xs "rationale" v0) "decision" v1)
        "approved_amount" v2) "rationale" = true := by
    intro xs v0 v1 v2
    rw [dictHas_dictSet_ne _ _ _ _ h6, dictHas_dictSet_ne _ _ _ _ h5,
      dictHas_dictSet_self]
  rw [dictSetDefault_of_has _ _ _ (hhasD _ _ _),
    dictSetDefault_of_has _ _ _ (hhasA _ _ _),
    dictSetDefault_of_has _ _ _ (hhasR _ _ _ _)]
  refine ⟨?_, ?_, ?_⟩
  · rw [dictGet_dictSet_ne _ _ _ _ h4, dictGet_dictSet_self]
  · rw [dictGet_dictSet_self]
  · rw [dictGet_dictSet_ne _ _ _ _ h6, dictGet_dictSet_ne _ _ _ _ h5,
      dictGet_dictSet_self]

def c10GoodResp : String :=
  "\x7b\"decision\": \"Approved\", \"approved_amount\": 500, \"rationale\": \"ok applicant\"\x7d"

/-- C10 witness: with three gambling lines and a well-formed model
response, the guardrail declines and appends the counts. -/
theorem c10_witness :
    (LoanAnalyzer.extract_gambling_stats c10Text).gambling_detected = true ∧
    dictGet (LoanAnalyzer.analyze_bank_statement c10Text "500" (.ok c10GoodResp))
        "decision" = some (PyVal.str "Declined") ∧
    dictGet (LoanAnalyzer.analyze_bank_statement c10Text "500" (.ok c10GoodResp))
        "approved_amount" = some PyVal.none ∧
    dictGet (LoanAnalyzer.analyze_bank_statement c10Text "500" (.ok c10GoodResp))
        "rationale" =
      some (PyVal.str (pyStrip (pyRStrip "ok applicant" ++
        LoanAnalyzer.gamblingSuffix
          (LoanAnalyzer.extract_gambling_stats c10Text).gambling_txn_count_30d
          (LoanAnalyzer.extract_gambling_stats c10Text).gambling_total_amount_30d
          (LoanAnalyzer.extract_gambling_stats c10Text).gambling_max_single_amount))) :=
  ⟨rfl,
   c10_guardrail_declines c10Text "500" c10GoodResp "ok applicant" rfl
     (Or.inl (by decide)) rfl⟩

end XCash
